import Mathlib

/-!
Verification of the coyote-scheduler repository: a shallow embedding of the
serializing scheduler kernel (the reference logic of the scheduler client,
`src/unnamed/part_000`) and of the PCT exploration strategy
(`src/include/coyote/strategies/pct_strategy.h`), with theorems about the
properties the specification states.

The repository does not ship `operation.h`, `operations.h` or `random.h`;
the definitions for those are modelled from the specification and say so in
their doc comments.  Everything else is translated from the source.
-/

namespace coyote

/-- Error codes of the scheduler, as thrown by the reference logic in
`src/unnamed/part_000` (`error_code.h` itself is not in the sources; the
constructor names are the ones the source text throws). -/
inductive ErrorCode where
| Success
| Failure
| DeadlockDetected
| DuplicateOperation
| NotExistingOperation
| MainOperationExplicitlyCreated
| MainOperationExplicitlyStarted
| MainOperationExplicitlyCompleted
| OperationNotStarted
| OperationAlreadyStarted
| OperationAlreadyCompleted
| ClientAttached
| ClientNotAttached
| DuplicateResource
| NotExistingResource
| SchedulerDisabled
| InternalError
deriving DecidableEq, Repr

/-- Status of an operation (`operation_status.h` is not in the sources;
the values are the ones the reference logic uses plus `Blocked` from the
spec data model). -/
inductive OperationStatus where
| None
| Enabled
| Blocked
| Completed
deriving DecidableEq, Repr

/-- Modelled from the spec: the per-operation record of §3/§4.A
(`operation.h` is not in the sources).  `blocked_operation_ids` is the set of
joiners (the field name the reference logic dereferences); the pending join
and resource sets with their `Any`/`All` mode record what this operation is
waiting on. -/
structure Operation where
  id : Nat
  status : OperationStatus
  is_scheduled : Bool
  blocked_operation_ids : List Nat
  pending_join_ids : List Nat
  join_wait_all : Bool
  pending_resource_ids : List Nat
  resource_wait_all : Bool
deriving DecidableEq, Repr

/-- A freshly constructed operation record: status `None`, not scheduled,
all wait sets empty. -/
def Operation.fresh (operation_id : Nat) : Operation :=
  { id := operation_id
    status := OperationStatus.None
    is_scheduled := false
    blocked_operation_ids := []
    pending_join_ids := []
    join_wait_all := false
    pending_resource_ids := []
    resource_wait_all := false }

/-- Insert into a list acting as a set: no-op when already present. -/
def setInsert (s : List Nat) (x : Nat) : List Nat :=
  if x ∈ s then s else s ++ [x]

/-- Modelled from the spec (§4.A): store a single join target on the record. -/
def Operation.join_operation (op : Operation) (target_id : Nat) : Operation :=
  { op with pending_join_ids := [target_id], join_wait_all := true }

/-- Modelled from the spec (§4.A): `on_join_complete` — erase the completed id
from the pending join set and report whether this operation is now unblocked
(mode `Any`: always on first signal; mode `All`: when the set empties). -/
def Operation.on_join_operation (op : Operation) (completed_id : Nat) :
    Bool × Operation :=
  let rest := op.pending_join_ids.filter (fun x => x ≠ completed_id)
  (if op.join_wait_all then rest.isEmpty else true,
   { op with pending_join_ids := rest })

/-- Modelled from the spec (§4.C/§4.A): store a single resource wait. -/
def Operation.wait_resource_signal (op : Operation) (resource_id : Nat) :
    Operation :=
  { op with pending_resource_ids := [resource_id], resource_wait_all := true }

/-- Modelled from the spec (§4.C/§4.A): store a wait on a set of resources
with the `Any`/`All` mode. -/
def Operation.wait_resource_signals (op : Operation) (resource_ids : List Nat)
    (wait_all : Bool) : Operation :=
  { op with pending_resource_ids := resource_ids, resource_wait_all := wait_all }

/-- Modelled from the spec (§4.C): `on_resource_signal` — erase the signalled
resource from the pending set and report whether the wait predicate is now
satisfied (mode `Any`: any signal; mode `All`: when the set empties). -/
def Operation.on_resource_signal (op : Operation) (resource_id : Nat) :
    Bool × Operation :=
  let rest := op.pending_resource_ids.filter (fun x => x ≠ resource_id)
  (if op.resource_wait_all then rest.isEmpty else true,
   { op with pending_resource_ids := rest })

/-- Modelled from the spec (§4.B): the enabled set (`operations.h` is not in
the sources) — an insertion-ordered collection of operation ids each carrying
an enabled flag.  `disable` keeps membership (for deadlock detection);
`remove` erases. -/
structure Operations where
  items : List (Nat × Bool)
deriving DecidableEq, Repr

/-- Modelled from the spec (§4.B): add an id as enabled. -/
def Operations.insert (s : Operations) (operation_id : Nat) : Operations :=
  ⟨s.items ++ [(operation_id, true)]⟩

/-- Modelled from the spec (§4.B): flip the enabled flag on, in place. -/
def Operations.enable (s : Operations) (operation_id : Nat) : Operations :=
  ⟨s.items.map (fun p => if p.1 = operation_id then (p.1, true) else p)⟩

/-- Modelled from the spec (§4.B): flip the enabled flag off, in place. -/
def Operations.disable (s : Operations) (operation_id : Nat) : Operations :=
  ⟨s.items.map (fun p => if p.1 = operation_id then (p.1, false) else p)⟩

/-- Modelled from the spec (§4.B): erase the id entirely. -/
def Operations.remove (s : Operations) (operation_id : Nat) : Operations :=
  ⟨s.items.filter (fun p => p.1 ≠ operation_id)⟩

/-- Modelled from the spec (§4.B): erase everything. -/
def Operations.clear (_s : Operations) : Operations := ⟨[]⟩

/-- Modelled from the spec (§4.B): `size(true)` counts enabled members,
`size(false)` counts all members, disabled included. -/
def Operations.size (s : Operations) (enabled_only : Bool) : Nat :=
  if enabled_only then (s.items.filter (fun p => p.2)).length
  else s.items.length

/-- Modelled from the spec (§4.B): the indexed view of the enabled members,
in deterministic order, as handed to the strategy. -/
def Operations.enabledIds (s : Operations) : List Nat :=
  (s.items.filter (fun p => p.2)).map (fun p => p.1)

/-- The PCT strategy state (`pct_strategy.h`).  `random.h` is not in the
sources, so the pseudo-random generator is modelled from the spec ("any
fixed-seed uniform generator suffices") as an arbitrary stream of draws
`draws` read off at position `draw_idx`; every property below holds for every
such stream.  The remaining fields are the ones of `PCTStrategy`. -/
structure PCTStrategy where
  draws : Nat → Nat
  draw_idx : Nat
  iteration_seed : Nat
  max_priority_switches : Nat
  prioritized_operations : List Nat
  known_operations : List Nat
  priority_change_points : List Nat
  scheduled_steps : Nat
  schedule_length : Nat

/-- `generator.next()`: read the next draw and advance the generator. -/
def PCTStrategy.gen_next (st : PCTStrategy) : Nat × PCTStrategy :=
  (st.draws st.draw_idx, { st with draw_idx := st.draw_idx + 1 })

/-- The `PCTStrategy` constructor: empty lists, zero counters
(`pct_strategy.h` lines 46-53). -/
def PCTStrategy.fresh (draws : Nat → Nat) (seed : Nat) (bound : Nat) :
    PCTStrategy :=
  { draws := draws
    draw_idx := 0
    iteration_seed := seed
    max_priority_switches := bound
    prioritized_operations := []
    known_operations := []
    priority_change_points := []
    scheduled_steps := 0
    schedule_length := 0 }

/-- One turn of the randomized-priority loop in
`set_new_operation_priorities` (`pct_strategy.h` lines 137-142): draw an
index in `[1, |prioritized_operations|]` and insert the new operation there. -/
def PCTStrategy.insert_new_operation (st : PCTStrategy) (next_op : Nat) :
    PCTStrategy :=
  let p := st.gen_next
  let index := p.1 % p.2.prioritized_operations.length + 1
  { p.2 with
    prioritized_operations := p.2.prioritized_operations.insertIdx index next_op
    known_operations := setInsert p.2.known_operations next_op }

/-- `set_new_operation_priorities` (`pct_strategy.h` lines 117-148): seed the
list with `current` when empty, then give every enabled operation without a
known priority a random one. -/
def PCTStrategy.set_new_operation_priorities (st : PCTStrategy)
    (operations : List Nat) (current : Nat) : PCTStrategy :=
  let st0 :=
    if st.prioritized_operations.length = 0 then
      { st with prioritized_operations := [current]
                known_operations := setInsert st.known_operations current }
    else st
  operations.foldl
    (fun s op =>
      if op ∈ s.known_operations then s else s.insert_new_operation op)
    st0

/-- `get_operation_with_highest_priority` (`pct_strategy.h` lines 176-191):
the first entry of the prioritized list that is an enabled operation; `none`
models the `throw ErrorCode::InternalError`. -/
def get_operation_with_highest_priority (prioritized : List Nat)
    (operations : List Nat) : Option Nat :=
  prioritized.find? (fun x => decide (x ∈ operations))

/-- `try_deprioritize_operation_with_highest_priority` (`pct_strategy.h`
lines 151-173): at a priority change point with more than one enabled
operation, move the highest-priority enabled operation to the back
(`std::list::remove` erases every copy, then `push_back`). -/
def PCTStrategy.try_deprioritize_operation_with_highest_priority
    (st : PCTStrategy) (operations : List Nat) : Except ErrorCode PCTStrategy :=
  if operations.length ≤ 1 then Except.ok st
  else if st.scheduled_steps ∈ st.priority_change_points then
    match get_operation_with_highest_priority st.prioritized_operations
        operations with
    | none => Except.error ErrorCode.InternalError
    | some op =>
        Except.ok { st with
          prioritized_operations :=
            (st.prioritized_operations.filter (fun x => x ≠ op)) ++ [op] }
  else Except.ok st

/-- `next_operation` (`pct_strategy.h` lines 62-69): assign priorities to new
operations, maybe deprioritize at a change point, count the step and return
the highest-priority enabled operation.  The state component records the
mutations performed up to a throw. -/
def PCTStrategy.next_operation (st : PCTStrategy) (operations : List Nat)
    (current : Nat) : Except ErrorCode Nat × PCTStrategy :=
  let st1 := st.set_new_operation_priorities operations current
  match st1.try_deprioritize_operation_with_highest_priority operations with
  | Except.error e => (Except.error e, st1)
  | Except.ok st2 =>
    let st3 := { st2 with scheduled_steps := st2.scheduled_steps + 1 }
    match get_operation_with_highest_priority st3.prioritized_operations
        operations with
    | some op => (Except.ok op, st3)
    | none => (Except.error ErrorCode.InternalError, st3)

/-- `next_boolean` (`pct_strategy.h` lines 72-76): count the step and return
the parity bit of the next draw. -/
def PCTStrategy.next_boolean (st : PCTStrategy) : Bool × PCTStrategy :=
  let st1 := { st with scheduled_steps := st.scheduled_steps + 1 }
  let p := st1.gen_next
  (p.1 % 2 = 1, p.2)

/-- `next_integer` (`pct_strategy.h` lines 79-83): count the step and return
the next draw reduced modulo `max_value`. -/
def PCTStrategy.next_integer (st : PCTStrategy) (max_value : Nat) :
    Nat × PCTStrategy :=
  let st1 := { st with scheduled_steps := st.scheduled_steps + 1 }
  let p := st1.gen_next
  (p.1 % max_value, p.2)

/-- Swap the elements at positions `i` and `j` (`std::iter_swap`); a no-op
when either index is out of range (unreachable in the shuffle). -/
def swapIdx (l : List Nat) (i j : Nat) : List Nat :=
  match l[i]?, l[j]? with
  | some a, some b => (l.set i b).set j a
  | _, _ => l

/-- The swap loop of `shuffle_priority_change_points` (`pct_strategy.h`
lines 204-215): for each index of `idxs`, draw a position modulo the list
length and swap. -/
def PCTStrategy.shuffle_pass (st : PCTStrategy) (range : List Nat)
    (idxs : List Nat) : List Nat × PCTStrategy :=
  idxs.foldl
    (fun acc idx =>
      let p := acc.2.gen_next
      let point := p.1 % acc.1.length
      (swapIdx acc.1 idx point, p.2))
    (range, st)

/-- `shuffle_priority_change_points` (`pct_strategy.h` lines 194-227): build
`[1, …, schedule_length−1]`, shuffle it with rng-driven swaps at indices
`size−1` down to `1`, and insert its first `max_priority_switches` elements
into the change-point set. -/
def PCTStrategy.shuffle_priority_change_points (st : PCTStrategy) :
    PCTStrategy :=
  if 1 < st.schedule_length then
    let range := List.range' 1 (st.schedule_length - 1)
    let idxs := (List.range' 1 (range.length - 1)).reverse
    let p := st.shuffle_pass range idxs
    { p.2 with
      priority_change_points :=
        (p.1.take p.2.max_priority_switches).foldl setInsert
          p.2.priority_change_points }
  else st

/-- `prepare_next_iteration` (`pct_strategy.h` lines 92-113): from the second
iteration on, fold the step count into `schedule_length`, reset the
per-iteration state and re-shuffle the change points. -/
def PCTStrategy.prepare_next_iteration (st : PCTStrategy) (iteration : Nat) :
    PCTStrategy :=
  if 1 < iteration then
    let st1 :=
      if st.schedule_length < st.scheduled_steps then
        { st with schedule_length := st.scheduled_steps }
      else st
    let st2 := { st1 with
      scheduled_steps := 0
      prioritized_operations := []
      known_operations := []
      priority_change_points := [] }
    st2.shuffle_priority_change_points
  else st

/-- A call into the PCT strategy, with its arguments. -/
inductive PCTEvent where
| nextOp (operations : List Nat) (current : Nat)
| nextBool
| nextInt (max_value : Nat)
| prepare (iteration : Nat)

/-- The state left behind by one strategy call (the returned value or thrown
error aside). -/
def PCTStrategy.stepEvent (st : PCTStrategy) : PCTEvent → PCTStrategy
| PCTEvent.nextOp ops cur => (st.next_operation ops cur).2
| PCTEvent.nextBool => (st.next_boolean).2
| PCTEvent.nextInt m => (st.next_integer m).2
| PCTEvent.prepare i => st.prepare_next_iteration i

/-- The strategy state after a sequence of calls. -/
def PCTStrategy.run (st : PCTStrategy) (evs : List PCTEvent) : PCTStrategy :=
  evs.foldl PCTStrategy.stepEvent st

/-- Lookup in an association list (a `std::map` keyed by id; only lookup,
checked insertion, pointwise update and erasure are observed, so insertion
order stands in for key order). -/
def assocFind {α : Type} : List (Nat × α) → Nat → Option α
| [], _ => none
| p :: t, k => if p.1 = k then some p.2 else assocFind t k

/-- `std::map::insert`: a no-op when the key is already present. -/
def assocInsert {α : Type} (m : List (Nat × α)) (k : Nat) (v : α) :
    List (Nat × α) :=
  if (assocFind m k).isSome then m else m ++ [(k, v)]

/-- Mutate the mapped value at a key through its iterator/pointer. -/
def assocUpdate {α : Type} (m : List (Nat × α)) (k : Nat) (f : α → α) :
    List (Nat × α) :=
  m.map (fun p => if p.1 = k then (p.1, f p.2) else p)

/-- The id of the main operation (the zero value, `scheduler.h` line 40). -/
def main_op_id : Nat := 0

/-- The scheduler kernel state, from the reference logic of
`src/unnamed/part_000` and the member list of `scheduler.h`.  The pluggable
strategy is instantiated with PCT (the representative the spec specifies).
`strategy_disabled` models `configuration->exploration_strategy() ==
StrategyType::None`. -/
structure Kernel where
  strategy_disabled : Bool
  strategy : PCTStrategy
  operation_map : List (Nat × Operation)
  resource_map : List (Nat × List Nat)
  operations : Operations
  scheduled_op_id : Nat
  pending_start_operation_count : Nat
  is_attached : Bool
  iteration_count : Nat
  last_error_code : ErrorCode

/-- The kernel constructor (`part_000` lines 16-28): empty maps, id 0
scheduled, not attached, iteration 0. -/
def Kernel.fresh (draws : Nat → Nat) (seed : Nat) (bound : Nat) : Kernel :=
  { strategy_disabled := false
    strategy := PCTStrategy.fresh draws seed bound
    operation_map := []
    resource_map := []
    operations := ⟨[]⟩
    scheduled_op_id := 0
    pending_start_operation_count := 0
    is_attached := false
    iteration_count := 0
    last_error_code := ErrorCode.Success }

/-- An entry point's outcome: `some e` models a thrown error code, paired
with the kernel state as mutated up to the throw point. -/
abbrev KResult := Option ErrorCode × Kernel

/-- The `catch` blocks of every entry point: a thrown code is stored in
`last_error_code`, and the entry point returns `last_error_code` either way
(`return last_error_code`). -/
def Kernel.finish : KResult → ErrorCode × Kernel
| (some e, s) => (e, { s with last_error_code := e })
| (none, s) => (s.last_error_code, s)

/-- The insertion block of `create_operation_inner` (`part_000` lines
876-884, duplicated verbatim at lines 899-906): checked insert of a fresh
record, and when the map then holds exactly one operation, make it the
scheduled token holder. -/
def Kernel.create_operation_insert_block (s : Kernel) (operation_id : Nat) :
    Kernel :=
  let m1 := assocInsert s.operation_map operation_id
    (Operation.fresh operation_id)
  if m1.length = 1 then
    { s with
      scheduled_op_id := operation_id
      operation_map := assocUpdate m1 operation_id
        (fun op => { op with is_scheduled := true }) }
  else { s with operation_map := m1 }

/-- `create_operation_inner` (`part_000` lines 871-910): insert a fresh
record, or revive a completed one by resetting it to `None`; throw
`DuplicateOperation` when the id exists and is not completed.  The
duplicated insertion block of the source is kept (it is a checked insert, so
it does not overwrite).  Finally count the pending start. -/
def Kernel.create_operation_inner (s : Kernel) (operation_id : Nat) :
    KResult :=
  match assocFind s.operation_map operation_id with
  | none =>
    let s1 := s.create_operation_insert_block operation_id
    let s2 := s1.create_operation_insert_block operation_id
    (none, { s2 with
      pending_start_operation_count := s2.pending_start_operation_count + 1 })
  | some existing_op =>
    if existing_op.status = OperationStatus.Completed then
      let s1 := { s with
        operation_map := assocUpdate s.operation_map operation_id
          (fun op => { op with
            status := OperationStatus.None
            is_scheduled := false }) }
      let s2 := s1.create_operation_insert_block operation_id
      (none, { s2 with
        pending_start_operation_count :=
          s2.pending_start_operation_count + 1 })
    else (some ErrorCode.DuplicateOperation, s)

/-- `start_operation_inner` (`part_000` lines 912-966): validate the record,
count down the pending starts, mark it `Enabled` and insert it into the
enabled set.  The park loop only waits (no state mutation), so it does not
appear. -/
def Kernel.start_operation_inner (s : Kernel) (operation_id : Nat) : KResult :=
  match assocFind s.operation_map operation_id with
  | none => (some ErrorCode.NotExistingOperation, s)
  | some op =>
    if op.status = OperationStatus.Completed then
      (some ErrorCode.OperationAlreadyCompleted, s)
    else if op.status ≠ OperationStatus.None then
      (some ErrorCode.OperationAlreadyStarted, s)
    else
      let s1 := { s with
        pending_start_operation_count :=
          s.pending_start_operation_count - 1 }
      if op.status ≠ OperationStatus.Completed then
        let s2 := { s1 with
          operation_map := assocUpdate s1.operation_map operation_id
            (fun o => { o with status := OperationStatus.Enabled }) }
        (none, { s2 with operations := s2.operations.insert op.id })
      else (none, s1)

/-- `schedule_next_inner` (`part_000` lines 968-1041).  A caller that would
wait (pending starts outstanding, or the yielding operation's park loop)
blocks without mutating state, so those waits do not appear; the pending
wait is modelled as leaving the state unchanged (the resumed remainder of
such a call is a later `schedule_next`).  With no enabled operation the call
throws `DeadlockDetected` (operations remain) or `Success` (none remain);
otherwise the strategy picks `next_id`, which is resumed, and the previous
operation — unless completed — gives up the token. -/
def Kernel.schedule_next_inner (s : Kernel) : KResult :=
  if 0 < s.pending_start_operation_count then (none, s)
  else if s.operations.size true = 0 then
    if 0 < s.operations.size false then (some ErrorCode.DeadlockDetected, s)
    else (some ErrorCode.Success, s)
  else
    let r := s.strategy.next_operation s.operations.enabledIds
      s.scheduled_op_id
    let s1 := { s with strategy := r.2 }
    match r.1 with
    | Except.error e => (some e, s1)
    | Except.ok next_id =>
      match assocFind s1.operation_map next_id with
      | none => (some ErrorCode.Failure, s1)
      | some _next_op =>
        let previous_id := s1.scheduled_op_id
        let s2 := { s1 with scheduled_op_id := next_id }
        if previous_id ≠ next_id then
          let s3 := { s2 with
            operation_map := assocUpdate s2.operation_map next_id
              (fun o => { o with is_scheduled := true }) }
          match assocFind s3.operation_map previous_id with
          | none => (some ErrorCode.Failure, s3)
          | some prev_op =>
            if prev_op.status ≠ OperationStatus.Completed then
              (none, { s3 with
                operation_map := assocUpdate s3.operation_map previous_id
                  (fun o => { o with is_scheduled := false }) })
            else (none, s3)
        else (none, s2)

/-- `attach` (`part_000` lines 30-87, reference logic): become attached,
count the iteration, reset the error, prepare the strategy from the second
iteration on, then create and start the main operation. -/
def Kernel.attach (s : Kernel) : ErrorCode × Kernel :=
  Kernel.finish
    (if s.strategy_disabled then (some ErrorCode.SchedulerDisabled, s)
     else if s.is_attached then (some ErrorCode.ClientAttached, s)
     else
       let s1 := { s with
         is_attached := true
         iteration_count := s.iteration_count + 1
         last_error_code := ErrorCode.Success }
       let s2 :=
         if 1 < s1.iteration_count then
           { s1 with
             strategy := s1.strategy.prepare_next_iteration s1.iteration_count }
         else s1
       match s2.create_operation_inner main_op_id with
       | (some e, s') => (some e, s')
       | (none, s3) => s3.start_operation_inner main_op_id)

/-- `detach` (`part_000` lines 89-162, reference logic): leave the attached
state, complete the main operation, cancel every still-live operation
(scheduled flag raised, status completed, disabled and woken), then clear
every map and the pending count. -/
def Kernel.detach (s : Kernel) : ErrorCode × Kernel :=
  Kernel.finish
    (if s.strategy_disabled then (some ErrorCode.SchedulerDisabled, s)
     else if ¬ s.is_attached then (some ErrorCode.ClientNotAttached, s)
     else
       let s1 := { s with is_attached := false }
       match assocFind s1.operation_map main_op_id with
       | none => (some ErrorCode.Failure, s1)
       | some main_op =>
         let s2 := { s1 with
           operation_map := assocUpdate s1.operation_map main_op_id
             (fun op => { op with status := OperationStatus.Completed }) }
         let s3 := { s2 with operations := s2.operations.disable main_op.id }
         let s4 := { s3 with
           operation_map := s3.operation_map.map
             (fun (p : Nat × Operation) =>
               if p.2.status ≠ OperationStatus.Completed then
                 (p.1, { p.2 with
                   is_scheduled := true
                   status := OperationStatus.Completed })
               else p)
           operations := s3.operation_map.foldl
             (fun (acc : Operations) (p : Nat × Operation) =>
               if p.2.status ≠ OperationStatus.Completed then
                 acc.disable p.2.id
               else acc)
             s3.operations }
         (none, { s4 with
           operation_map := []
           operations := s4.operations.clear
           resource_map := []
           pending_start_operation_count := 0 }))

/-- `create_operation` (`part_000` lines 164-216, reference logic). -/
def Kernel.create_operation (s : Kernel) (operation_id : Nat) :
    ErrorCode × Kernel :=
  Kernel.finish
    (if s.strategy_disabled then (some ErrorCode.SchedulerDisabled, s)
     else if ¬ s.is_attached then (some ErrorCode.ClientNotAttached, s)
     else if operation_id = main_op_id then
       (some ErrorCode.MainOperationExplicitlyCreated, s)
     else s.create_operation_inner operation_id)

/-- `start_operation` (`part_000` lines 218-270, reference logic). -/
def Kernel.start_operation (s : Kernel) (operation_id : Nat) :
    ErrorCode × Kernel :=
  Kernel.finish
    (if s.strategy_disabled then (some ErrorCode.SchedulerDisabled, s)
     else if ¬ s.is_attached then (some ErrorCode.ClientNotAttached, s)
     else if operation_id = main_op_id then
       (some ErrorCode.MainOperationExplicitlyStarted, s)
     else s.start_operation_inner operation_id)

/-- `join_operation` (`part_000` lines 272-346, reference logic): record the
caller as a joiner of a non-completed target, store the join target on the
caller, disable it and schedule the next operation; a completed target
returns at once. -/
def Kernel.join_operation (s : Kernel) (operation_id : Nat) :
    ErrorCode × Kernel :=
  Kernel.finish
    (if s.strategy_disabled then (some ErrorCode.SchedulerDisabled, s)
     else if ¬ s.is_attached then (some ErrorCode.ClientNotAttached, s)
     else
       match assocFind s.operation_map operation_id with
       | none => (some ErrorCode.NotExistingOperation, s)
       | some join_op =>
         if join_op.status ≠ OperationStatus.Completed then
           let s1 := { s with
             operation_map := assocUpdate s.operation_map operation_id
               (fun op => { op with
                 blocked_operation_ids :=
                   setInsert op.blocked_operation_ids s.scheduled_op_id }) }
           match assocFind s1.operation_map s1.scheduled_op_id with
           | none => (some ErrorCode.Failure, s1)
           | some scheduled_op =>
             let s2 := { s1 with
               operation_map := assocUpdate s1.operation_map
                 s1.scheduled_op_id
                 (fun op => op.join_operation operation_id) }
             let s3 := { s2 with
               operations := s2.operations.disable scheduled_op.id }
             s3.schedule_next_inner
         else (none, s))

/-- The joiner-notification loop of `complete_operation` (`part_000` lines
487-495): each joiner is told the operation completed and is re-enabled when
its join predicate is now satisfied. -/
def Kernel.notify_joiners (s : Kernel) (joiners : List Nat)
    (completed_id : Nat) : KResult :=
  match joiners with
  | [] => (none, s)
  | j :: rest =>
    match assocFind s.operation_map j with
    | none => (some ErrorCode.Failure, s)
    | some blocked_op =>
      let r := blocked_op.on_join_operation completed_id
      let s1 := { s with
        operation_map := assocUpdate s.operation_map j (fun _ => r.2) }
      let s2 :=
        if r.1 then { s1 with operations := s1.operations.enable blocked_op.id }
        else s1
      s2.notify_joiners rest completed_id

/-- `complete_operation` (`part_000` lines 425-510, reference logic):
validate, mark the operation completed and remove it from the enabled set,
notify its joiners, then schedule the next operation. -/
def Kernel.complete_operation (s : Kernel) (operation_id : Nat) :
    ErrorCode × Kernel :=
  Kernel.finish
    (if s.strategy_disabled then (some ErrorCode.SchedulerDisabled, s)
     else if ¬ s.is_attached then (some ErrorCode.ClientNotAttached, s)
     else if operation_id = main_op_id then
       (some ErrorCode.MainOperationExplicitlyCompleted, s)
     else
       match assocFind s.operation_map operation_id with
       | none => (some ErrorCode.NotExistingOperation, s)
       | some op =>
         if op.status = OperationStatus.Completed then
           (some ErrorCode.OperationAlreadyCompleted, s)
         else if op.status = OperationStatus.None then
           (some ErrorCode.OperationNotStarted, s)
         else
           let s1 := { s with
             operation_map := assocUpdate s.operation_map operation_id
               (fun o => { o with status := OperationStatus.Completed }) }
           let s2 := { s1 with operations := s1.operations.remove op.id }
           match s2.notify_joiners op.blocked_operation_ids operation_id with
           | (some e, s3) => (some e, s3)
           | (none, s3) => s3.schedule_next_inner)

/-- `create_resource` (`part_000` lines 512-550, reference logic). -/
def Kernel.create_resource (s : Kernel) (resource_id : Nat) :
    ErrorCode × Kernel :=
  Kernel.finish
    (if s.strategy_disabled then (some ErrorCode.SchedulerDisabled, s)
     else if ¬ s.is_attached then (some ErrorCode.ClientNotAttached, s)
     else
       match assocFind s.resource_map resource_id with
       | some _ => (some ErrorCode.DuplicateResource, s)
       | none =>
         (none, { s with
           resource_map := assocInsert s.resource_map resource_id [] }))

/-- `wait_resource` (`part_000` lines 552-597, reference logic): store the
wait on the caller's record and disable it, then — only then — look the
resource up (`NotExistingResource` when absent, with the mutations kept),
register the caller as blocked and schedule the next operation. -/
def Kernel.wait_resource (s : Kernel) (resource_id : Nat) :
    ErrorCode × Kernel :=
  Kernel.finish
    (if s.strategy_disabled then (some ErrorCode.SchedulerDisabled, s)
     else if ¬ s.is_attached then (some ErrorCode.ClientNotAttached, s)
     else
       match assocFind s.operation_map s.scheduled_op_id with
       | none => (some ErrorCode.Failure, s)
       | some scheduled_op =>
         let s1 := { s with
           operation_map := assocUpdate s.operation_map s.scheduled_op_id
             (fun op => op.wait_resource_signal resource_id) }
         let s2 := { s1 with
           operations := s1.operations.disable scheduled_op.id }
         match assocFind s2.resource_map resource_id with
         | none => (some ErrorCode.NotExistingResource, s2)
         | some _ =>
           let s3 := { s2 with
             resource_map := assocUpdate s2.resource_map resource_id
               (fun blocked => setInsert blocked s2.scheduled_op_id) }
           s3.schedule_next_inner)

/-- The waiter-notification loop of `signal_resource` (`part_000` lines
685-692): each operation blocked on the resource is signalled and re-enabled
when its wait predicate is now satisfied. -/
def Kernel.signal_waiters (s : Kernel) (blocked_ids : List Nat)
    (resource_id : Nat) : KResult :=
  match blocked_ids with
  | [] => (none, s)
  | b :: rest =>
    match assocFind s.operation_map b with
    | none => (some ErrorCode.Failure, s)
    | some blocked_op =>
      let r := blocked_op.on_resource_signal resource_id
      let s1 := { s with
        operation_map := assocUpdate s.operation_map b (fun _ => r.2) }
      let s2 :=
        if r.1 then { s1 with operations := s1.operations.enable blocked_op.id }
        else s1
      s2.signal_waiters rest resource_id

/-- `signal_resource` (`part_000` lines 659-706, reference logic): wake every
operation blocked on the resource whose predicate is now satisfied, then
clear the resource's blocked set.  The token is not passed. -/
def Kernel.signal_resource (s : Kernel) (resource_id : Nat) :
    ErrorCode × Kernel :=
  Kernel.finish
    (if s.strategy_disabled then (some ErrorCode.SchedulerDisabled, s)
     else if ¬ s.is_attached then (some ErrorCode.ClientNotAttached, s)
     else
       match assocFind s.resource_map resource_id with
       | none => (some ErrorCode.NotExistingResource, s)
       | some blocked_ids =>
         match s.signal_waiters blocked_ids resource_id with
         | (some e, s1) => (some e, s1)
         | (none, s1) =>
           (none, { s1 with
             resource_map := assocUpdate s1.resource_map resource_id
               (fun _ => []) }))

/-- The targeted `signal_resource` (`part_000` lines 708-757, reference
logic): wake at most the named operation, when it is blocked on the
resource, and drop it from the blocked set. -/
def Kernel.signal_resource_op (s : Kernel) (resource_id : Nat)
    (operation_id : Nat) : ErrorCode × Kernel :=
  Kernel.finish
    (if s.strategy_disabled then (some ErrorCode.SchedulerDisabled, s)
     else if ¬ s.is_attached then (some ErrorCode.ClientNotAttached, s)
     else
       match assocFind s.resource_map resource_id with
       | none => (some ErrorCode.NotExistingResource, s)
       | some blocked_ids =>
         if operation_id ∈ blocked_ids then
           match assocFind s.operation_map operation_id with
           | none => (some ErrorCode.Failure, s)
           | some blocked_op =>
             let r := blocked_op.on_resource_signal resource_id
             let s1 := { s with
               operation_map := assocUpdate s.operation_map operation_id
                 (fun _ => r.2) }
             let s2 :=
               if r.1 then
                 { s1 with operations := s1.operations.enable blocked_op.id }
               else s1
             (none, { s2 with
               resource_map := assocUpdate s2.resource_map resource_id
                 (fun blocked =>
                   blocked.filter (fun x => x ≠ operation_id)) })
         else (none, s))

/-- `delete_resource` (`part_000` lines 759-796, reference logic). -/
def Kernel.delete_resource (s : Kernel) (resource_id : Nat) :
    ErrorCode × Kernel :=
  Kernel.finish
    (if s.strategy_disabled then (some ErrorCode.SchedulerDisabled, s)
     else if ¬ s.is_attached then (some ErrorCode.ClientNotAttached, s)
     else
       match assocFind s.resource_map resource_id with
       | none => (some ErrorCode.NotExistingResource, s)
       | some _ =>
         (none, { s with
           resource_map :=
             s.resource_map.filter (fun p => p.1 ≠ resource_id) }))

/-- `schedule_next` (`part_000` lines 798-843, reference logic). -/
def Kernel.schedule_next (s : Kernel) : ErrorCode × Kernel :=
  Kernel.finish
    (if s.strategy_disabled then (some ErrorCode.SchedulerDisabled, s)
     else if ¬ s.is_attached then (some ErrorCode.ClientNotAttached, s)
     else s.schedule_next_inner)

/-- A client call into one of the kernel's entry points, with its arguments. -/
inductive KEvent where
| attach
| detach
| createOp (operation_id : Nat)
| startOp (operation_id : Nat)
| completeOp (operation_id : Nat)
| joinOp (operation_id : Nat)
| createRes (resource_id : Nat)
| deleteRes (resource_id : Nat)
| waitRes (resource_id : Nat)
| signalRes (resource_id : Nat)
| signalResTo (resource_id : Nat) (operation_id : Nat)
| scheduleNext

/-- The kernel state after one entry point runs (the kernel lock serializes
entry points, so a run of the system is a sequence of these). -/
def Kernel.stepEvent (s : Kernel) : KEvent → Kernel
| KEvent.attach => (s.attach).2
| KEvent.detach => (s.detach).2
| KEvent.createOp i => (s.create_operation i).2
| KEvent.startOp i => (s.start_operation i).2
| KEvent.completeOp i => (s.complete_operation i).2
| KEvent.joinOp i => (s.join_operation i).2
| KEvent.createRes i => (s.create_resource i).2
| KEvent.deleteRes i => (s.delete_resource i).2
| KEvent.waitRes i => (s.wait_resource i).2
| KEvent.signalRes i => (s.signal_resource i).2
| KEvent.signalResTo r i => (s.signal_resource_op r i).2
| KEvent.scheduleNext => (s.schedule_next).2

/-- The kernel state after a sequence of entry points. -/
def Kernel.run (s : Kernel) (evs : List KEvent) : Kernel :=
  evs.foldl Kernel.stepEvent s

/-- The scheduling-relevant view of an operation record: its token flag and
its status. -/
def viewOp (o : Operation) : Bool × OperationStatus :=
  (o.is_scheduled, o.status)

/-- Mutual exclusion of scheduling as the code maintains it: every
non-completed operation record holding the token flag is the operation named
by `scheduled_op_id` (completed records may retain a stale flag). -/
def Kernel.scheduledMutex (s : Kernel) : Prop :=
  ∀ id op, assocFind s.operation_map id = some op →
    op.is_scheduled = true → op.status ≠ OperationStatus.Completed →
    id = s.scheduled_op_id

/-- The kernel invariant: a detached kernel has an empty operation map; an
attached kernel holds records for the main and the scheduled operation; and
scheduling is mutually exclusive among non-completed records. -/
def KernelInv (s : Kernel) : Prop :=
  (s.is_attached = false → s.operation_map = []) ∧
  (s.is_attached = true →
    (assocFind s.operation_map main_op_id).isSome = true ∧
    (assocFind s.operation_map s.scheduled_op_id).isSome = true) ∧
  s.scheduledMutex

/-- Every entry the enabled-set structure holds for this id carries the
enabled flag. -/
def Operations.allEnabled (o : Operations) (id : Nat) : Prop :=
  ∀ q ∈ o.items, q.1 = id → q.2 = true

/-- The PCT bookkeeping invariant: the set of operations with a known
priority is exactly the set of members of the prioritized list. -/
def pctKnownInv (st : PCTStrategy) : Prop :=
  ∀ x, x ∈ st.known_operations ↔ x ∈ st.prioritized_operations

/-- The PCT change-point invariant: never more change points than
`max_priority_switches`, all drawn from `[1, schedule_length)`. -/
def pctChangePointInv (st : PCTStrategy) : Prop :=
  st.priority_change_points.length ≤ st.max_priority_switches ∧
  ∀ p ∈ st.priority_change_points, 1 ≤ p ∧ p < st.schedule_length

/-! ### Association-list lemmas -/

theorem assocFind_append_single {α : Type} (m : List (Nat × α)) (k k' : Nat)
    (v : α) :
    assocFind (m ++ [(k, v)]) k' =
      match assocFind m k' with
      | some x => some x
      | none => if k = k' then some v else none := by
  induction m with
  | nil => simp [assocFind, eq_comm]
  | cons p t ih =>
    by_cases h : p.1 = k' <;> simp [assocFind, h, ih]

theorem assocFind_update {α : Type} (m : List (Nat × α)) (k k' : Nat)
    (f : α → α) :
    assocFind (assocUpdate m k f) k' =
      if k' = k then (assocFind m k').map f else assocFind m k' := by
  induction m with
  | nil => simp [assocFind, assocUpdate]
  | cons p t ih =>
    simp only [assocUpdate, List.map_cons] at ih ⊢
    by_cases hk : p.1 = k
    · rw [if_pos hk]
      by_cases hk' : k' = k
      · subst hk'
        simp [assocFind, hk]
      · have h1 : ¬ p.1 = k' := fun h => hk' ((h ▸ hk) : k' = k)
        simp only [assocFind, if_neg h1, ih, if_neg hk']
    · rw [if_neg hk]
      by_cases hp : p.1 = k'
      · have hk' : ¬ k' = k := fun h => hk (by rw [hp, h])
        simp only [assocFind, if_pos hp, if_neg hk']
      · simp only [assocFind, if_neg hp, ih]

theorem assocFind_update_isSome {α : Type} (m : List (Nat × α)) (k k' : Nat)
    (f : α → α) :
    (assocFind (assocUpdate m k f) k').isSome =
      (assocFind m k').isSome := by
  rw [assocFind_update]
  split <;> simp [Option.isSome_map]

theorem assocUpdate_length {α : Type} (m : List (Nat × α)) (k : Nat)
    (f : α → α) : (assocUpdate m k f).length = m.length := by
  simp [assocUpdate]

theorem assocFind_insert_of_present {α : Type} (m : List (Nat × α))
    (k : Nat) (v : α) (h : (assocFind m k).isSome = true) :
    assocInsert m k v = m := by
  simp [assocInsert, h]

theorem assocFind_insert_isSome {α : Type} (m : List (Nat × α)) (k k' : Nat)
    (v : α) (h : (assocFind m k').isSome = true) :
    (assocFind (assocInsert m k v) k').isSome = true := by
  unfold assocInsert
  split
  · exact h
  · rw [assocFind_append_single]
    rcases h' : assocFind m k' with _ | x
    · rw [h'] at h; simp at h
    · simp [h']

theorem assocFind_singleton {α : Type} (m : List (Nat × α)) (a b : Nat)
    (x y : α) (hlen : m.length = 1) (ha : assocFind m a = some x)
    (hb : assocFind m b = some y) : a = b := by
  match m, hlen with
  | [p], _ =>
    by_cases h1 : p.1 = a
    · by_cases h2 : p.1 = b
      · exact h1 ▸ h2 ▸ rfl
      · simp [assocFind, h2] at hb
    · simp [assocFind, h1] at ha

/-! ### C9: next_integer range -/

/-- C9: for every call `next_integer(max)` with a positive bound, the
returned value lies in `[0, max)` (the draw is reduced modulo `max_value`). -/
theorem pct_next_integer_in_range (st : PCTStrategy) (max_value : Nat)
    (h : 0 < max_value) :
    0 ≤ (st.next_integer max_value).1 ∧
    (st.next_integer max_value).1 < max_value := by
  refine ⟨Nat.zero_le _, ?_⟩
  simpa [PCTStrategy.next_integer, PCTStrategy.gen_next] using
    Nat.mod_lt (st.draws st.draw_idx) h

/-- Witness for C9 at a concrete strategy state and bound. -/
theorem pct_next_integer_in_range_witness :
    0 < 5 ∧
    (0 ≤ ((PCTStrategy.fresh (fun _ => 7) 1 2).next_integer 5).1 ∧
     ((PCTStrategy.fresh (fun _ => 7) 1 2).next_integer 5).1 < 5) :=
  ⟨by decide, pct_next_integer_in_range (PCTStrategy.fresh (fun _ => 7) 1 2) 5
    (by decide)⟩

/-! ### C4: deadlock detection in schedule_next -/

/-- C4: when `schedule_next` runs with no pending starts and no enabled
operation, it throws `DeadlockDetected` exactly when operations (including
disabled ones) remain, and `Success` otherwise; the state is unchanged. -/
theorem schedule_next_deadlock_or_success (s : Kernel)
    (hp : s.pending_start_operation_count = 0)
    (he : s.operations.size true = 0) :
    s.schedule_next_inner =
      (some (if 0 < s.operations.size false then ErrorCode.DeadlockDetected
             else ErrorCode.Success), s) := by
  unfold Kernel.schedule_next_inner
  rw [hp, he]
  by_cases h : 0 < s.operations.size false <;> simp [h]

/-- Witness for C4: a kernel holding one disabled (blocked) operation and no
enabled one throws `DeadlockDetected` from `schedule_next_inner`. -/
theorem schedule_next_deadlock_or_success_witness :
    ({ Kernel.fresh (fun _ => 0) 0 0 with
        operations := ⟨[(1, false)]⟩
        is_attached := true } : Kernel).pending_start_operation_count = 0 ∧
    ({ Kernel.fresh (fun _ => 0) 0 0 with
        operations := ⟨[(1, false)]⟩
        is_attached := true } : Kernel).operations.size true = 0 ∧
    ({ Kernel.fresh (fun _ => 0) 0 0 with
        operations := ⟨[(1, false)]⟩
        is_attached := true } : Kernel).schedule_next_inner =
      (some (if 0 < ({ Kernel.fresh (fun _ => 0) 0 0 with
          operations := ⟨[(1, false)]⟩
          is_attached := true } : Kernel).operations.size false then
            ErrorCode.DeadlockDetected
          else ErrorCode.Success),
        { Kernel.fresh (fun _ => 0) 0 0 with
          operations := ⟨[(1, false)]⟩
          is_attached := true }) :=
  ⟨rfl, rfl,
    schedule_next_deadlock_or_success
      { Kernel.fresh (fun _ => 0) 0 0 with
        operations := ⟨[(1, false)]⟩
        is_attached := true } rfl rfl⟩

/-! ### C5: create_operation duplicate / revive semantics -/

theorem insert_block_find (s : Kernel) (operation_id : Nat) (op : Operation)
    (h : assocFind s.operation_map operation_id = some op) :
    ∃ op',
      assocFind (s.create_operation_insert_block operation_id).operation_map
        operation_id = some op' ∧
      op'.status = op.status := by
  unfold Kernel.create_operation_insert_block
  have hsome : (assocFind s.operation_map operation_id).isSome = true := by
    rw [h]; rfl
  rw [assocFind_insert_of_present _ _ _ hsome]
  dsimp only
  split
  · refine ⟨{ op with is_scheduled := true }, ?_, rfl⟩
    rw [assocFind_update, if_pos rfl, h]
    rfl
  · exact ⟨op, h, rfl⟩

/-- C5: `create_operation_inner(id)` throws `DuplicateOperation` exactly when
a record for the id exists with a status other than `Completed`; on a
`Completed` record the call succeeds and the record's status is reset to
`None` (reviving the id). -/
theorem create_operation_duplicate_iff (s : Kernel) (operation_id : Nat) :
    ((s.create_operation_inner operation_id).1 =
        some ErrorCode.DuplicateOperation ↔
      ∃ op, assocFind s.operation_map operation_id = some op ∧
        op.status ≠ OperationStatus.Completed) ∧
    (∀ op, assocFind s.operation_map operation_id = some op →
      op.status = OperationStatus.Completed →
      (s.create_operation_inner operation_id).1 = none ∧
      ∃ op',
        assocFind (s.create_operation_inner operation_id).2.operation_map
          operation_id = some op' ∧
        op'.status = OperationStatus.None) := by
  unfold Kernel.create_operation_inner
  cases hfind : assocFind s.operation_map operation_id with
  | none =>
    dsimp only
    refine ⟨⟨fun h => Option.noConfusion h, ?_⟩, ?_⟩
    · rintro ⟨op', hop', _⟩
      exact Option.noConfusion hop'
    · intro op h
      exact Option.noConfusion h
  | some op =>
    by_cases hst : op.status = OperationStatus.Completed
    · dsimp only
      rw [if_pos hst]
      dsimp only
      refine ⟨⟨fun h => Option.noConfusion h, ?_⟩, ?_⟩
      · rintro ⟨op', hop', hne⟩
        obtain rfl := Option.some.inj hop'
        exact absurd hst hne
      · intro op2 hop2 _
        obtain rfl := Option.some.inj hop2
        refine ⟨rfl, ?_⟩
        have hmid :
            assocFind
              ({ s with
                operation_map := assocUpdate s.operation_map operation_id
                  (fun o => { o with
                    status := OperationStatus.None
                    is_scheduled := false }) } :
                Kernel).operation_map operation_id =
              some { op with
                status := OperationStatus.None
                is_scheduled := false } := by
          show assocFind (assocUpdate s.operation_map operation_id
            (fun o => { o with
              status := OperationStatus.None
              is_scheduled := false })) operation_id =
            some { op with
              status := OperationStatus.None
              is_scheduled := false }
          rw [assocFind_update, if_pos rfl, hfind]
          rfl
        obtain ⟨op', h1, h2⟩ := insert_block_find _ _ _ hmid
        exact ⟨op', h1, h2⟩
    · dsimp only
      rw [if_neg hst]
      dsimp only
      refine ⟨⟨fun _ => ⟨op, rfl, hst⟩, fun _ => rfl⟩, ?_⟩
      intro op2 hop2 hc
      obtain rfl := Option.some.inj hop2
      exact absurd hc hst

/-- Witness for C5 at a concrete kernel holding a completed record for id 7
and a non-completed record for id 3. -/
theorem create_operation_duplicate_iff_witness :
    (((Kernel.fresh (fun _ => 0) 0 0).create_operation_inner 7).1 =
        some ErrorCode.DuplicateOperation ↔
      ∃ op,
        assocFind (Kernel.fresh (fun _ => 0) 0 0).operation_map 7 = some op ∧
        op.status ≠ OperationStatus.Completed) ∧
    (∀ op,
      assocFind (Kernel.fresh (fun _ => 0) 0 0).operation_map 7 = some op →
      op.status = OperationStatus.Completed →
      ((Kernel.fresh (fun _ => 0) 0 0).create_operation_inner 7).1 = none ∧
      ∃ op',
        assocFind
          ((Kernel.fresh (fun _ => 0) 0 0).create_operation_inner
            7).2.operation_map 7 = some op' ∧
        op'.status = OperationStatus.None) :=
  create_operation_duplicate_iff (Kernel.fresh (fun _ => 0) 0 0) 7

/-! ### C10: wait_resource error is not atomic -/

/-- C10: `wait_resource` on an absent resource throws `NotExistingResource`,
but only after storing the resource wait on the caller's record and disabling
the caller in the enabled set — the mutations survive the error. -/
theorem wait_resource_error_not_atomic (s : Kernel) (resource_id : Nat)
    (op : Operation)
    (hd : s.strategy_disabled = false)
    (ha : s.is_attached = true)
    (hop : assocFind s.operation_map s.scheduled_op_id = some op)
    (hres : assocFind s.resource_map resource_id = none) :
    (s.wait_resource resource_id).1 = ErrorCode.NotExistingResource ∧
    (s.wait_resource resource_id).2.last_error_code =
      ErrorCode.NotExistingResource ∧
    assocFind (s.wait_resource resource_id).2.operation_map
      s.scheduled_op_id = some (op.wait_resource_signal resource_id) ∧
    (s.wait_resource resource_id).2.operations =
      s.operations.disable op.id := by
  have hrun :
      s.wait_resource resource_id =
        (ErrorCode.NotExistingResource,
          { s with
            operation_map := assocUpdate s.operation_map s.scheduled_op_id
              (fun o => o.wait_resource_signal resource_id)
            operations := s.operations.disable op.id
            last_error_code := ErrorCode.NotExistingResource }) := by
    unfold Kernel.wait_resource
    rw [hd, ha]
    simp only [Bool.false_eq_true, if_false, Bool.not_eq_true',
      Bool.true_eq_false, hop, hres]
    rfl
  refine ⟨by rw [hrun], by rw [hrun], ?_, by rw [hrun]⟩
  rw [hrun]
  show assocFind (assocUpdate s.operation_map s.scheduled_op_id
      (fun o => o.wait_resource_signal resource_id)) s.scheduled_op_id =
    some (op.wait_resource_signal resource_id)
  rw [assocFind_update, if_pos rfl, hop]
  rfl

/-- Witness for C10: a concrete attached kernel whose scheduled operation 0
waits on the absent resource 4. -/
theorem wait_resource_error_not_atomic_witness :
    (({ Kernel.fresh (fun _ => 0) 0 0 with
        is_attached := true
        operation_map := [(0, { Operation.fresh 0 with
          status := OperationStatus.Enabled, is_scheduled := true })]
        operations := ⟨[(0, true)]⟩ } : Kernel).wait_resource 4).1 =
      ErrorCode.NotExistingResource ∧
    assocFind
      (({ Kernel.fresh (fun _ => 0) 0 0 with
          is_attached := true
          operation_map := [(0, { Operation.fresh 0 with
            status := OperationStatus.Enabled, is_scheduled := true })]
          operations := ⟨[(0, true)]⟩ } : Kernel).wait_resource
        4).2.operation_map 0 =
      some (({ Operation.fresh 0 with
        status := OperationStatus.Enabled,
        is_scheduled := true } : Operation).wait_resource_signal 4) ∧
    (({ Kernel.fresh (fun _ => 0) 0 0 with
        is_attached := true
        operation_map := [(0, { Operation.fresh 0 with
          status := OperationStatus.Enabled, is_scheduled := true })]
        operations := ⟨[(0, true)]⟩ } : Kernel).wait_resource 4).2.operations =
      (⟨[(0, true)]⟩ : Operations).disable 0 :=
  by
  obtain ⟨h1, _, h3, h4⟩ :=
    wait_resource_error_not_atomic
      { Kernel.fresh (fun _ => 0) 0 0 with
        is_attached := true
        operation_map := [(0, { Operation.fresh 0 with
          status := OperationStatus.Enabled, is_scheduled := true })]
        operations := ⟨[(0, true)]⟩ } 4
      { Operation.fresh 0 with
        status := OperationStatus.Enabled, is_scheduled := true }
      rfl rfl rfl rfl
  exact ⟨h1, h3, h4⟩

/-! ### C8: signal_resource wakes satisfied waiters and keeps the token -/

theorem allEnabled_enable (o : Operations) (id id' : Nat)
    (h : o.allEnabled id) : (o.enable id').allEnabled id := by
  intro q hq hkey
  simp only [Operations.enable, List.mem_map] at hq
  obtain ⟨p, hp, hpq⟩ := hq
  by_cases hpk : p.1 = id'
  · rw [← hpq]
    simp [hpk]
  · rw [← hpq] at hkey ⊢
    simp only [if_neg hpk] at hkey ⊢
    exact h p hp hkey

theorem allEnabled_enable_self (o : Operations) (id : Nat) :
    (o.enable id).allEnabled id := by
  intro q hq hkey
  simp only [Operations.enable, List.mem_map] at hq
  obtain ⟨p, hp, hpq⟩ := hq
  by_cases hpk : p.1 = id
  · rw [← hpq]
    simp [hpk]
  · rw [← hpq] at hkey
    simp only [if_neg hpk] at hkey
    exact absurd hkey hpk

theorem signal_waiters_spec (blocked : List Nat) :
    ∀ (s : Kernel) (resource_id : Nat),
    blocked.Nodup →
    (∀ b ∈ blocked, (assocFind s.operation_map b).isSome = true) →
    (s.signal_waiters blocked resource_id).1 = none ∧
    (s.signal_waiters blocked resource_id).2.scheduled_op_id =
      s.scheduled_op_id ∧
    (s.signal_waiters blocked resource_id).2.resource_map = s.resource_map ∧
    (s.signal_waiters blocked resource_id).2.last_error_code =
      s.last_error_code ∧
    (∀ id, s.operations.allEnabled id →
      (s.signal_waiters blocked resource_id).2.operations.allEnabled id) ∧
    (∀ b op, b ∈ blocked → assocFind s.operation_map b = some op →
      (op.on_resource_signal resource_id).1 = true →
      (s.signal_waiters blocked resource_id).2.operations.allEnabled op.id) := by
  induction blocked with
  | nil =>
    intro s rid _ _
    exact ⟨rfl, rfl, rfl, rfl, fun id h => h,
      fun b op hb => absurd hb (List.not_mem_nil b)⟩
  | cons b rest ih =>
    intro s rid hnd hpres
    have hb : (assocFind s.operation_map b).isSome = true :=
      hpres b (List.mem_cons_self b rest)
    obtain ⟨blocked_op, hfind⟩ := Option.isSome_iff_exists.mp hb
    obtain ⟨s2, hrun, hsched, hres, herr, hmap, hmono, hsat⟩ :
        ∃ s2 : Kernel,
          s.signal_waiters (b :: rest) rid = s2.signal_waiters rest rid ∧
          s2.scheduled_op_id = s.scheduled_op_id ∧
          s2.resource_map = s.resource_map ∧
          s2.last_error_code = s.last_error_code ∧
          s2.operation_map = assocUpdate s.operation_map b
            (fun _ => (blocked_op.on_resource_signal rid).2) ∧
          (∀ id, s.operations.allEnabled id → s2.operations.allEnabled id) ∧
          ((blocked_op.on_resource_signal rid).1 = true →
            s2.operations.allEnabled blocked_op.id) := by
      by_cases hs : (blocked_op.on_resource_signal rid).1 = true
      · refine ⟨{ s with
            operation_map := assocUpdate s.operation_map b
              (fun _ => (blocked_op.on_resource_signal rid).2)
            operations := s.operations.enable blocked_op.id }, ?_, rfl, rfl,
          rfl, rfl,
          fun id h => allEnabled_enable _ _ _ h,
          fun _ => allEnabled_enable_self _ _⟩
        simp only [Kernel.signal_waiters, hfind]
        rw [if_pos hs]
      · refine ⟨{ s with
            operation_map := assocUpdate s.operation_map b
              (fun _ => (blocked_op.on_resource_signal rid).2) }, ?_, rfl, rfl,
          rfl, rfl, fun id h => h, fun h => absurd h hs⟩
        simp only [Kernel.signal_waiters, hfind]
        rw [if_neg hs]
    have hnd' : rest.Nodup := hnd.of_cons
    have hbnot : b ∉ rest := (List.nodup_cons.mp hnd).1
    have hpres' : ∀ b' ∈ rest, (assocFind s2.operation_map b').isSome = true := by
      intro b' hb'
      rw [hmap, assocFind_update_isSome]
      exact hpres b' (List.mem_cons_of_mem b hb')
    obtain ⟨i1, i2, i3, i4, i5, i6⟩ := ih s2 rid hnd' hpres'
    rw [hrun]
    refine ⟨i1, i2.trans hsched, i3.trans hres, i4.trans herr,
      fun id h => i5 id (hmono id h), ?_⟩
    intro b0 op0 hb0 hfind0 hsat0
    rcases List.mem_cons.mp hb0 with hb0 | hb0
    · subst hb0
      rw [hfind] at hfind0
      obtain rfl := Option.some.inj hfind0
      exact i5 _ (hsat hsat0)
    · have hne : ¬ b0 = b := fun h => hbnot (h ▸ hb0)
      have : assocFind s2.operation_map b0 = some op0 := by
        rw [hmap, assocFind_update, if_neg hne]
        exact hfind0
      exact i6 b0 op0 hb0 this hsat0

/-- C8: `signal_resource(id)` on an existing resource re-enables every
blocked operation whose wait predicate is now satisfied, empties the
resource's blocked set, and leaves `scheduled_op_id` unchanged (the token is
not passed); no error is thrown. -/
theorem signal_resource_wakes_all (s : Kernel) (resource_id : Nat)
    (blocked : List Nat)
    (hd : s.strategy_disabled = false)
    (ha : s.is_attached = true)
    (hres : assocFind s.resource_map resource_id = some blocked)
    (hnd : blocked.Nodup)
    (hpres : ∀ b ∈ blocked, (assocFind s.operation_map b).isSome = true) :
    (s.signal_resource resource_id).1 = s.last_error_code ∧
    (s.signal_resource resource_id).2.scheduled_op_id = s.scheduled_op_id ∧
    assocFind (s.signal_resource resource_id).2.resource_map resource_id =
      some [] ∧
    (∀ b op, b ∈ blocked → assocFind s.operation_map b = some op →
      (op.on_resource_signal resource_id).1 = true →
      (s.signal_resource resource_id).2.operations.allEnabled op.id) := by
  obtain ⟨w1, w2, w3, w4, _, w6⟩ := signal_waiters_spec blocked s resource_id
    hnd hpres
  have hpair : s.signal_waiters blocked resource_id =
      (none, (s.signal_waiters blocked resource_id).2) := by
    rw [← w1]
  have hrun : s.signal_resource resource_id =
      ((s.signal_waiters blocked resource_id).2.last_error_code,
        { (s.signal_waiters blocked resource_id).2 with
          resource_map := assocUpdate
            (s.signal_waiters blocked resource_id).2.resource_map resource_id
            (fun _ => []) }) := by
    unfold Kernel.signal_resource
    rw [hd, ha]
    simp only [Bool.false_eq_true, if_false, Bool.not_eq_true',
      Bool.true_eq_false, hres]
    rw [hpair]
    rfl
  refine ⟨?_, ?_, ?_, ?_⟩
  · rw [hrun]
    exact w4
  · rw [hrun]
    exact w2
  · rw [hrun]
    show assocFind (assocUpdate
      (s.signal_waiters blocked resource_id).2.resource_map resource_id
      (fun _ => [])) resource_id = some []
    rw [assocFind_update, if_pos rfl, w3, hres]
    rfl
  · intro b op hb hf hs
    rw [hrun]
    exact w6 b op hb hf hs

/-- Witness for C8: a concrete attached kernel where operation 1 is blocked
on the existing resource 9 and its wait predicate is satisfied by the
signal. -/
theorem signal_resource_wakes_all_witness :
    (({ Kernel.fresh (fun _ => 0) 0 0 with
        is_attached := true
        operation_map := [(1, { Operation.fresh 1 with
          status := OperationStatus.Enabled
          pending_resource_ids := [9]
          resource_wait_all := true })]
        operations := ⟨[(1, false)]⟩
        resource_map := [(9, [1])] } : Kernel).signal_resource 9).2.scheduled_op_id =
      ({ Kernel.fresh (fun _ => 0) 0 0 with
        is_attached := true
        operation_map := [(1, { Operation.fresh 1 with
          status := OperationStatus.Enabled
          pending_resource_ids := [9]
          resource_wait_all := true })]
        operations := ⟨[(1, false)]⟩
        resource_map := [(9, [1])] } : Kernel).scheduled_op_id ∧
    assocFind
      (({ Kernel.fresh (fun _ => 0) 0 0 with
          is_attached := true
          operation_map := [(1, { Operation.fresh 1 with
            status := OperationStatus.Enabled
            pending_resource_ids := [9]
            resource_wait_all := true })]
          operations := ⟨[(1, false)]⟩
          resource_map := [(9, [1])] } : Kernel).signal_resource
        9).2.resource_map 9 = some [] ∧
    (({ Kernel.fresh (fun _ => 0) 0 0 with
        is_attached := true
        operation_map := [(1, { Operation.fresh 1 with
          status := OperationStatus.Enabled
          pending_resource_ids := [9]
          resource_wait_all := true })]
        operations := ⟨[(1, false)]⟩
        resource_map := [(9, [1])] } : Kernel).signal_resource
      9).2.operations.allEnabled 1 := by
  obtain ⟨_, h2, h3, h4⟩ :=
    signal_resource_wakes_all
      { Kernel.fresh (fun _ => 0) 0 0 with
        is_attached := true
        operation_map := [(1, { Operation.fresh 1 with
          status := OperationStatus.Enabled
          pending_resource_ids := [9]
          resource_wait_all := true })]
        operations := ⟨[(1, false)]⟩
        resource_map := [(9, [1])] } 9 [1] rfl rfl rfl
      (by decide) (by intro b hb; fin_cases hb; rfl)
  refine ⟨h2, h3, ?_⟩
  exact h4 1 { Operation.fresh 1 with
    status := OperationStatus.Enabled
    pending_resource_ids := [9]
    resource_wait_all := true } (by decide) rfl (by decide)

/-! ### C6: new PCT priorities never preempt the current front -/

theorem insert_new_keeps_head (st : PCTStrategy) (op : Nat)
    (h : st.prioritized_operations ≠ []) :
    (st.insert_new_operation op).prioritized_operations.head? =
      st.prioritized_operations.head? ∧
    (st.insert_new_operation op).prioritized_operations ≠ [] := by
  obtain ⟨x, xs, hxs⟩ := List.exists_cons_of_ne_nil h
  unfold PCTStrategy.insert_new_operation PCTStrategy.gen_next
  dsimp only
  rw [hxs]
  rw [show st.draws st.draw_idx % (x :: xs).length + 1 =
    (st.draws st.draw_idx % (x :: xs).length) + 1 from rfl]
  rw [List.insertIdx_succ_cons]
  exact ⟨rfl, fun hc => List.noConfusion hc⟩

theorem set_new_fold_keeps_head (ops : List Nat) :
    ∀ st : PCTStrategy, st.prioritized_operations ≠ [] →
    ((ops.foldl
        (fun s op =>
          if op ∈ s.known_operations then s else s.insert_new_operation op)
        st).prioritized_operations.head? =
      st.prioritized_operations.head? ∧
    (ops.foldl
        (fun s op =>
          if op ∈ s.known_operations then s else s.insert_new_operation op)
        st).prioritized_operations ≠ []) := by
  induction ops with
  | nil => exact fun st h => ⟨rfl, h⟩
  | cons op rest ih =>
    intro st h
    simp only [List.foldl_cons]
    by_cases hk : op ∈ st.known_operations
    · rw [if_pos hk]
      exact ih st h
    · rw [if_neg hk]
      obtain ⟨h1, h2⟩ := insert_new_keeps_head st op h
      obtain ⟨g1, g2⟩ := ih _ h2
      exact ⟨g1.trans h1, g2⟩

/-- C6: every new operation is inserted into the priority list at an index
`k = draw % |list| + 1` with `1 ≤ k ≤ |list|` — never at index 0 — so the id
at the front before `set_new_operation_priorities` is still at the front
after it. -/
theorem pct_new_ops_never_preempt_front (st : PCTStrategy) (ops : List Nat)
    (cur : Nat) (h : st.prioritized_operations ≠ []) :
    (st.set_new_operation_priorities ops cur).prioritized_operations.head? =
      st.prioritized_operations.head? ∧
    (∀ next_op : Nat,
      (st.insert_new_operation next_op).prioritized_operations =
        st.prioritized_operations.insertIdx
          (st.draws st.draw_idx % st.prioritized_operations.length + 1)
          next_op ∧
      1 ≤ st.draws st.draw_idx % st.prioritized_operations.length + 1 ∧
      st.draws st.draw_idx % st.prioritized_operations.length + 1 ≤
        st.prioritized_operations.length) := by
  have hlenpos : 0 < st.prioritized_operations.length :=
    List.length_pos.mpr h
  constructor
  · unfold PCTStrategy.set_new_operation_priorities
    rw [if_neg (by
      intro hc
      exact h (List.length_eq_zero.mp hc))]
    exact (set_new_fold_keeps_head ops st h).1
  · intro next_op
    refine ⟨rfl, Nat.succ_le_succ (Nat.zero_le _), ?_⟩
    exact Nat.succ_le_of_lt (Nat.mod_lt _ hlenpos)

/-- Witness for C6 at a concrete strategy state whose priority list holds
the single id 3; the new id 5 is inserted behind it. -/
theorem pct_new_ops_never_preempt_front_witness :
    ({ PCTStrategy.fresh (fun _ => 0) 0 0 with
        prioritized_operations := [3]
        known_operations := [3] } : PCTStrategy).prioritized_operations ≠
      [] ∧
    (({ PCTStrategy.fresh (fun _ => 0) 0 0 with
        prioritized_operations := [3]
        known_operations := [3] } :
        PCTStrategy).set_new_operation_priorities [5]
      7).prioritized_operations.head? =
      ({ PCTStrategy.fresh (fun _ => 0) 0 0 with
        prioritized_operations := [3]
        known_operations := [3] } :
        PCTStrategy).prioritized_operations.head? :=
  ⟨by decide,
    (pct_new_ops_never_preempt_front
      { PCTStrategy.fresh (fun _ => 0) 0 0 with
        prioritized_operations := [3]
        known_operations := [3] } [5] 7 (by decide)).1⟩

/-! ### C2: PCT next_operation returns the first enabled id of the list -/

theorem mem_setInsert (s : List Nat) (x y : Nat) :
    y ∈ setInsert s x ↔ y ∈ s ∨ y = x := by
  unfold setInsert
  split
  · rename_i hx
    constructor
    · exact Or.inl
    · rintro (h | rfl)
      · exact h
      · exact hx
  · simp

theorem insert_new_inv (st : PCTStrategy) (op : Nat)
    (hinv : pctKnownInv st) (h : st.prioritized_operations ≠ []) :
    pctKnownInv (st.insert_new_operation op) ∧
    (st.insert_new_operation op).prioritized_operations ≠ [] ∧
    op ∈ (st.insert_new_operation op).known_operations := by
  have hidx : st.draws st.draw_idx % st.prioritized_operations.length + 1 ≤
      st.prioritized_operations.length :=
    Nat.succ_le_of_lt (Nat.mod_lt _ (List.length_pos.mpr h))
  refine ⟨?_, (insert_new_keeps_head st op h).2, ?_⟩
  · intro x
    show x ∈ setInsert st.known_operations op ↔
      x ∈ st.prioritized_operations.insertIdx
        (st.draws st.draw_idx % st.prioritized_operations.length + 1) op
    rw [mem_setInsert, List.mem_insertIdx hidx, hinv x, or_comm, eq_comm]
  · show op ∈ setInsert st.known_operations op
    rw [mem_setInsert]
    exact Or.inr rfl

theorem set_new_fold_inv (ops : List Nat) :
    ∀ st : PCTStrategy, pctKnownInv st → st.prioritized_operations ≠ [] →
    pctKnownInv
      (ops.foldl
        (fun s op =>
          if op ∈ s.known_operations then s else s.insert_new_operation op)
        st) ∧
    (ops.foldl
        (fun s op =>
          if op ∈ s.known_operations then s else s.insert_new_operation op)
        st).prioritized_operations ≠ [] ∧
    (∀ x ∈ st.known_operations,
      x ∈ (ops.foldl
        (fun s op =>
          if op ∈ s.known_operations then s else s.insert_new_operation op)
        st).known_operations) ∧
    (∀ x ∈ ops,
      x ∈ (ops.foldl
        (fun s op =>
          if op ∈ s.known_operations then s else s.insert_new_operation op)
        st).known_operations) := by
  induction ops with
  | nil =>
    intro st hinv h
    exact ⟨hinv, h, fun x hx => hx, fun x hx => absurd hx (List.not_mem_nil x)⟩
  | cons op rest ih =>
    intro st hinv h
    simp only [List.foldl_cons]
    by_cases hk : op ∈ st.known_operations
    · rw [if_pos hk]
      obtain ⟨i1, i2, i3, i4⟩ := ih st hinv h
      refine ⟨i1, i2, i3, ?_⟩
      intro x hx
      rcases List.mem_cons.mp hx with rfl | hx
      · exact i3 x hk
      · exact i4 x hx
    · rw [if_neg hk]
      obtain ⟨j1, j2, j3⟩ := insert_new_inv st op hinv h
      obtain ⟨i1, i2, i3, i4⟩ := ih _ j1 j2
      refine ⟨i1, i2, ?_, ?_⟩
      · intro x hx
        refine i3 x ?_
        show x ∈ setInsert st.known_operations op
        rw [mem_setInsert]
        exact Or.inl hx
      · intro x hx
        rcases List.mem_cons.mp hx with rfl | hx
        · exact i3 x j3
        · exact i4 x hx

theorem set_new_spec (st : PCTStrategy) (ops : List Nat) (cur : Nat)
    (hinv : pctKnownInv st) :
    pctKnownInv (st.set_new_operation_priorities ops cur) ∧
    (st.set_new_operation_priorities ops cur).prioritized_operations ≠ [] ∧
    (∀ x ∈ ops,
      x ∈ (st.set_new_operation_priorities ops
        cur).prioritized_operations) := by
  unfold PCTStrategy.set_new_operation_priorities
  by_cases h0 : st.prioritized_operations.length = 0
  · rw [if_pos h0]
    have hnil : st.prioritized_operations = [] := List.length_eq_zero.mp h0
    have hinv0 : pctKnownInv { st with
        prioritized_operations := [cur]
        known_operations := setInsert st.known_operations cur } := by
      intro x
      show x ∈ setInsert st.known_operations cur ↔ x ∈ [cur]
      rw [mem_setInsert]
      have : x ∈ st.known_operations ↔ False := by
        rw [hinv x, hnil]
        simp
      rw [this]
      simp
    obtain ⟨i1, i2, _, i4⟩ := set_new_fold_inv ops _ hinv0
      (by intro hc; exact List.noConfusion hc)
    exact ⟨i1, i2, fun x hx => (i1 x).mp (i4 x hx)⟩
  · rw [if_neg h0]
    have hne : st.prioritized_operations ≠ [] := by
      intro hc
      exact h0 (by rw [hc]; rfl)
    obtain ⟨i1, i2, _, i4⟩ := set_new_fold_inv ops st hinv hne
    exact ⟨i1, i2, fun x hx => (i1 x).mp (i4 x hx)⟩

theorem try_deprioritize_spec (st : PCTStrategy) (ops : List Nat)
    (hne : ops ≠ []) (hsub : ∀ x ∈ ops, x ∈ st.prioritized_operations) :
    ∃ st', st.try_deprioritize_operation_with_highest_priority ops =
        Except.ok st' ∧
      (∀ x ∈ ops, x ∈ st'.prioritized_operations) ∧
      st'.known_operations = st.known_operations ∧
      st'.scheduled_steps = st.scheduled_steps := by
  unfold PCTStrategy.try_deprioritize_operation_with_highest_priority
  by_cases h1 : ops.length ≤ 1
  · rw [if_pos h1]
    exact ⟨st, rfl, hsub, rfl, rfl⟩
  · rw [if_neg h1]
    by_cases h2 : st.scheduled_steps ∈ st.priority_change_points
    · rw [if_pos h2]
      obtain ⟨y, hy⟩ := List.exists_mem_of_ne_nil ops hne
      have hfind : (get_operation_with_highest_priority
          st.prioritized_operations ops).isSome = true := by
        unfold get_operation_with_highest_priority
        rw [List.find?_isSome]
        exact ⟨y, hsub y hy, decide_eq_true hy⟩
      obtain ⟨op0, hop0⟩ := Option.isSome_iff_exists.mp hfind
      rw [hop0]
      refine ⟨_, rfl, ?_, rfl, rfl⟩
      intro x hx
      have hxl : x ∈ st.prioritized_operations := hsub x hx
      show x ∈ st.prioritized_operations.filter (fun z => z ≠ op0) ++ [op0]
      by_cases hxo : x = op0
      · exact List.mem_append_right _ (by rw [hxo]; exact List.mem_singleton_self op0)
      · exact List.mem_append_left _
          (List.mem_filter.mpr ⟨hxl, decide_eq_true hxo⟩)
    · rw [if_neg h2]
      exact ⟨st, rfl, hsub, rfl, rfl⟩

theorem try_deprioritize_inv (st st' : PCTStrategy) (ops : List Nat)
    (h : st.try_deprioritize_operation_with_highest_priority ops =
      Except.ok st') :
    st'.known_operations = st.known_operations ∧
    (∀ y, y ∈ st'.prioritized_operations ↔
      y ∈ st.prioritized_operations) := by
  unfold PCTStrategy.try_deprioritize_operation_with_highest_priority at h
  by_cases h1 : ops.length ≤ 1
  · rw [if_pos h1] at h
    obtain rfl := (Except.ok.inj h)
    exact ⟨rfl, fun y => Iff.rfl⟩
  · rw [if_neg h1] at h
    by_cases h2 : st.scheduled_steps ∈ st.priority_change_points
    · rw [if_pos h2] at h
      cases hop0 : get_operation_with_highest_priority
          st.prioritized_operations ops with
      | none => rw [hop0] at h; cases h
      | some op0 =>
        rw [hop0] at h
        obtain rfl := (Except.ok.inj h)
        have hmem : op0 ∈ st.prioritized_operations :=
          List.mem_of_find?_eq_some hop0
        refine ⟨rfl, ?_⟩
        intro y
        show y ∈ st.prioritized_operations.filter (fun z => z ≠ op0) ++ [op0] ↔
          y ∈ st.prioritized_operations
        constructor
        · intro hy
          rcases List.mem_append.mp hy with hy | hy
          · exact List.mem_of_mem_filter hy
          · rw [List.mem_singleton.mp hy]
            exact hmem
        · intro hy
          by_cases hyo : y = op0
          · exact List.mem_append_right _
              (by rw [hyo]; exact List.mem_singleton_self op0)
          · exact List.mem_append_left _
              (List.mem_filter.mpr ⟨hy, decide_eq_true hyo⟩)
    · rw [if_neg h2] at h
      obtain rfl := (Except.ok.inj h)
      exact ⟨rfl, fun y => Iff.rfl⟩

theorem shuffle_pass_fields (idxs : List Nat) :
    ∀ (st : PCTStrategy) (range : List Nat),
    ((st.shuffle_pass range idxs).2).prioritized_operations =
      st.prioritized_operations ∧
    ((st.shuffle_pass range idxs).2).known_operations =
      st.known_operations ∧
    ((st.shuffle_pass range idxs).2).priority_change_points =
      st.priority_change_points ∧
    ((st.shuffle_pass range idxs).2).max_priority_switches =
      st.max_priority_switches ∧
    ((st.shuffle_pass range idxs).2).schedule_length = st.schedule_length ∧
    ((st.shuffle_pass range idxs).2).scheduled_steps = st.scheduled_steps := by
  induction idxs with
  | nil => exact fun st range => ⟨rfl, rfl, rfl, rfl, rfl, rfl⟩
  | cons i rest ih =>
    intro st range
    have hstep : st.shuffle_pass range (i :: rest) =
        PCTStrategy.shuffle_pass { st with draw_idx := st.draw_idx + 1 }
          (swapIdx range i (st.draws st.draw_idx % range.length)) rest := rfl
    rw [hstep]
    exact ih _ _

theorem shuffle_preserves_lists (st : PCTStrategy) :
    (st.shuffle_priority_change_points).prioritized_operations =
      st.prioritized_operations ∧
    (st.shuffle_priority_change_points).known_operations =
      st.known_operations ∧
    (st.shuffle_priority_change_points).max_priority_switches =
      st.max_priority_switches ∧
    (st.shuffle_priority_change_points).schedule_length =
      st.schedule_length := by
  unfold PCTStrategy.shuffle_priority_change_points
  dsimp only
  split
  · obtain ⟨f1, f2, _, f4, f5, _⟩ := shuffle_pass_fields _ _ _
    exact ⟨f1, f2, f4, f5⟩
  · exact ⟨rfl, rfl, rfl, rfl⟩

theorem next_operation_core (st : PCTStrategy) (ops : List Nat) (cur : Nat)
    (hinv : pctKnownInv st) (hne : ops ≠ []) :
    ∃ op st', st.next_operation ops cur = (Except.ok op, st') ∧ op ∈ ops ∧
      st'.prioritized_operations.find? (fun x => decide (x ∈ ops)) =
        some op := by
  obtain ⟨i1, i2, i3⟩ := set_new_spec st ops cur hinv
  obtain ⟨st2, hok, j2, _, _⟩ := try_deprioritize_spec
    (st.set_new_operation_priorities ops cur) ops hne i3
  obtain ⟨y, hy⟩ := List.exists_mem_of_ne_nil ops hne
  have hfind : (st2.prioritized_operations.find?
      (fun x => decide (x ∈ ops))).isSome = true := by
    rw [List.find?_isSome]
    exact ⟨y, j2 y hy, decide_eq_true hy⟩
  obtain ⟨op, hop⟩ := Option.isSome_iff_exists.mp hfind
  refine ⟨op, { st2 with scheduled_steps := st2.scheduled_steps + 1 }, ?_,
    ?_, hop⟩
  · unfold PCTStrategy.next_operation
    dsimp only
    rw [hok]
    dsimp only
    have : get_operation_with_highest_priority
        st2.prioritized_operations ops = some op := hop
    rw [this]
  · have := List.find?_some hop
    exact of_decide_eq_true this

theorem pct_step_inv (st : PCTStrategy) (e : PCTEvent)
    (hinv : pctKnownInv st) : pctKnownInv (st.stepEvent e) := by
  cases e with
  | nextOp ops cur =>
    show pctKnownInv (st.next_operation ops cur).2
    obtain ⟨i1, _, _⟩ := set_new_spec st ops cur hinv
    unfold PCTStrategy.next_operation
    dsimp only
    cases hok : (st.set_new_operation_priorities ops
        cur).try_deprioritize_operation_with_highest_priority ops with
    | error e => exact i1
    | ok st2 =>
      obtain ⟨k1, k2⟩ := try_deprioritize_inv _ _ _ hok
      have hinv2 : pctKnownInv { st2 with
          scheduled_steps := st2.scheduled_steps + 1 } := by
        intro x
        show x ∈ st2.known_operations ↔ x ∈ st2.prioritized_operations
        rw [k1, k2 x]
        exact i1 x
      dsimp only
      cases hget : get_operation_with_highest_priority
          st2.prioritized_operations ops with
      | none => exact hinv2
      | some op => exact hinv2
  | nextBool => exact hinv
  | nextInt m => exact hinv
  | prepare i =>
    show pctKnownInv (st.prepare_next_iteration i)
    unfold PCTStrategy.prepare_next_iteration
    by_cases hi : 1 < i
    · rw [if_pos hi]
      dsimp only
      intro x
      obtain ⟨f1, f2, _, _⟩ := shuffle_preserves_lists _
      rw [f1, f2]
    · rw [if_neg hi]
      exact hinv

theorem pct_run_inv_of (evs : List PCTEvent) :
    ∀ st : PCTStrategy, pctKnownInv st → pctKnownInv (st.run evs) := by
  induction evs with
  | nil => exact fun st h => h
  | cons e rest ih =>
    intro st h
    show pctKnownInv (List.foldl PCTStrategy.stepEvent st (e :: rest))
    rw [List.foldl_cons]
    exact ih _ (pct_step_inv st e h)

theorem pct_run_inv (draws : Nat → Nat) (seed bound : Nat)
    (evs : List PCTEvent) :
    pctKnownInv (PCTStrategy.run (PCTStrategy.fresh draws seed bound) evs) :=
  pct_run_inv_of evs _ (fun _ => Iff.rfl)

/-- C2: in every reachable PCT state, `next_operation` on a non-empty
enabled set succeeds (the `InternalError` branch is unreachable, because
step 1 assigned every enabled id a priority): it returns the first id of the
prioritized list, scanned front to back, that is also enabled — in
particular an enabled id. -/
theorem pct_next_operation_returns_enabled (draws : Nat → Nat)
    (seed bound : Nat) (evs : List PCTEvent) (ops : List Nat) (cur : Nat)
    (hne : ops ≠ []) :
    ∃ op st',
      (PCTStrategy.run (PCTStrategy.fresh draws seed bound) evs).next_operation
        ops cur = (Except.ok op, st') ∧
      op ∈ ops ∧
      st'.prioritized_operations.find? (fun x => decide (x ∈ ops)) =
        some op :=
  next_operation_core _ ops cur (pct_run_inv draws seed bound evs) hne

/-- Witness for C2 at the freshly constructed strategy, enabled set `[5]`
and current id 3. -/
theorem pct_next_operation_returns_enabled_witness :
    ([5] : List Nat) ≠ [] ∧
    ∃ op st',
      (PCTStrategy.run (PCTStrategy.fresh (fun _ => 0) 1 0) []).next_operation
        [5] 3 = (Except.ok op, st') ∧
      op ∈ ([5] : List Nat) ∧
      st'.prioritized_operations.find? (fun x => decide (x ∈ ([5] : List Nat)))
        = some op :=
  ⟨by decide,
    pct_next_operation_returns_enabled (fun _ => 0) 1 0 [] [5] 3 (by decide)⟩

/-! ### C7: change points bounded by max_priority_switches and drawn from
[1, schedule_length) -/

theorem mem_foldl_setInsert (xs : List Nat) :
    ∀ (s : List Nat) (y : Nat),
    y ∈ List.foldl setInsert s xs ↔ y ∈ s ∨ y ∈ xs := by
  induction xs with
  | nil => intro s y; simp
  | cons x rest ih =>
    intro s y
    rw [List.foldl_cons, ih, mem_setInsert, List.mem_cons]
    constructor
    · rintro ((h | rfl) | h)
      · exact Or.inl h
      · exact Or.inr (Or.inl rfl)
      · exact Or.inr (Or.inr h)
    · rintro (h | (rfl | h))
      · exact Or.inl (Or.inl h)
      · exact Or.inl (Or.inr rfl)
      · exact Or.inr h

theorem length_setInsert (s : List Nat) (x : Nat) :
    (setInsert s x).length ≤ s.length + 1 := by
  unfold setInsert
  split
  · exact Nat.le_succ _
  · rw [List.length_append]
    exact Nat.le_refl _

theorem length_foldl_setInsert (xs : List Nat) :
    ∀ s : List Nat,
    (List.foldl setInsert s xs).length ≤ s.length + xs.length := by
  induction xs with
  | nil => intro s; exact Nat.le_refl _
  | cons x rest ih =>
    intro s
    rw [List.foldl_cons]
    calc (List.foldl setInsert (setInsert s x) rest).length
        ≤ (setInsert s x).length + rest.length := ih _
      _ ≤ (s.length + 1) + rest.length :=
          Nat.add_le_add_right (length_setInsert s x) _
      _ = s.length + (x :: rest).length := by
          rw [List.length_cons]
          omega

theorem cons_set_perm :
    ∀ (xs : List Nat) (k : Nat) (b x : Nat), xs[k]? = some b →
    (b :: xs.set k x).Perm (x :: xs) := by
  intro xs
  induction xs with
  | nil => intro k b x h; simp at h
  | cons y t ih =>
    intro k b x h
    cases k with
    | zero =>
      rw [List.getElem?_cons_zero] at h
      obtain rfl := Option.some.inj h
      exact List.Perm.swap x y t
    | succ m =>
      rw [List.getElem?_cons_succ] at h
      show (b :: y :: t.set m x).Perm (x :: y :: t)
      exact ((List.Perm.swap y b (t.set m x)).trans
        (List.Perm.cons y (ih m b x h))).trans (List.Perm.swap x y t)

theorem set_set_swap_perm :
    ∀ (l : List Nat) (i j a b : Nat), l[i]? = some a → l[j]? = some b →
    ((l.set i b).set j a).Perm l := by
  intro l
  induction l with
  | nil => intro i j a b h; simp at h
  | cons x t ih =>
    intro i j a b hi hj
    cases i with
    | zero =>
      rw [List.getElem?_cons_zero] at hi
      obtain rfl := Option.some.inj hi
      cases j with
      | zero =>
        rw [List.getElem?_cons_zero] at hj
        obtain rfl := Option.some.inj hj
        exact List.Perm.refl _
      | succ m =>
        rw [List.getElem?_cons_succ] at hj
        show (b :: t.set m x).Perm (x :: t)
        exact cons_set_perm t m b x hj
    | succ k =>
      rw [List.getElem?_cons_succ] at hi
      cases j with
      | zero =>
        rw [List.getElem?_cons_zero] at hj
        obtain rfl := Option.some.inj hj
        show (a :: t.set k x).Perm (x :: t)
        exact cons_set_perm t k a x hi
      | succ m =>
        rw [List.getElem?_cons_succ] at hj
        show (x :: (t.set k b).set m a).Perm (x :: t)
        exact List.Perm.cons x (ih k m a b hi hj)

theorem swapIdx_perm (l : List Nat) (i j : Nat) : (swapIdx l i j).Perm l := by
  unfold swapIdx
  cases hi : l[i]? with
  | none => exact List.Perm.refl _
  | some a =>
    cases hj : l[j]? with
    | none => exact List.Perm.refl _
    | some b => exact set_set_swap_perm l i j a b hi hj

theorem shuffle_pass_perm (idxs : List Nat) :
    ∀ (st : PCTStrategy) (range : List Nat),
    ((st.shuffle_pass range idxs).1).Perm range := by
  induction idxs with
  | nil => intro st range; exact List.Perm.refl _
  | cons i rest ih =>
    intro st range
    have hstep : st.shuffle_pass range (i :: rest) =
        PCTStrategy.shuffle_pass { st with draw_idx := st.draw_idx + 1 }
          (swapIdx range i (st.draws st.draw_idx % range.length)) rest := rfl
    rw [hstep]
    exact (ih _ _).trans (swapIdx_perm range i _)

theorem shuffle_change_point_inv (st : PCTStrategy)
    (h0 : st.priority_change_points = []) :
    pctChangePointInv st.shuffle_priority_change_points ∧
    (st.shuffle_priority_change_points).schedule_length =
      st.schedule_length := by
  unfold PCTStrategy.shuffle_priority_change_points
  dsimp only
  split
  · rename_i hlen
    obtain ⟨_, _, f3, f4, f5, _⟩ := shuffle_pass_fields
      (List.range' 1 ((List.range' 1 (st.schedule_length - 1)).length - 1)).reverse
      st (List.range' 1 (st.schedule_length - 1))
    constructor
    constructor
    · show (List.foldl setInsert _ _).length ≤ _
      rw [f3, h0, f4]
      calc (List.foldl setInsert []
          (((st.shuffle_pass (List.range' 1 (st.schedule_length - 1))
            (List.range' 1 ((List.range' 1 (st.schedule_length - 1)).length -
              1)).reverse).1).take st.max_priority_switches)).length
          ≤ ([] : List Nat).length +
            (((st.shuffle_pass (List.range' 1 (st.schedule_length - 1))
              (List.range' 1 ((List.range' 1 (st.schedule_length - 1)).length -
                1)).reverse).1).take st.max_priority_switches).length :=
            length_foldl_setInsert _ _
        _ ≤ st.max_priority_switches := by
            rw [List.length_take]
            simp [Nat.min_le_left]
    · intro p hp
      rw [f3, h0] at hp
      rw [mem_foldl_setInsert] at hp
      rcases hp with hp | hp
      · exact absurd hp (List.not_mem_nil p)
      · have hp1 : p ∈ (st.shuffle_pass (List.range' 1 (st.schedule_length - 1))
            (List.range' 1 ((List.range' 1 (st.schedule_length - 1)).length -
              1)).reverse).1 := List.take_subset _ _ hp
        have hp2 : p ∈ List.range' 1 (st.schedule_length - 1) :=
          (shuffle_pass_perm _ _ _).mem_iff.mp hp1
        rw [List.mem_range'] at hp2
        obtain ⟨k, hk, rfl⟩ := hp2
        show 1 ≤ 1 + 1 * k ∧ 1 + 1 * k < _
        rw [f5]
        omega
    · exact f5
  · rename_i hlen
    refine ⟨⟨?_, ?_⟩, rfl⟩
    · rw [h0]
      exact Nat.zero_le _
    · intro p hp
      rw [h0] at hp
      exact absurd hp (List.not_mem_nil p)

theorem set_new_fold_cp_fields (ops : List Nat) :
    ∀ st : PCTStrategy,
    (ops.foldl
        (fun s op =>
          if op ∈ s.known_operations then s else s.insert_new_operation op)
        st).priority_change_points = st.priority_change_points ∧
    (ops.foldl
        (fun s op =>
          if op ∈ s.known_operations then s else s.insert_new_operation op)
        st).max_priority_switches = st.max_priority_switches ∧
    (ops.foldl
        (fun s op =>
          if op ∈ s.known_operations then s else s.insert_new_operation op)
        st).schedule_length = st.schedule_length := by
  induction ops with
  | nil => exact fun st => ⟨rfl, rfl, rfl⟩
  | cons op rest ih =>
    intro st
    rw [List.foldl_cons]
    by_cases hk : op ∈ st.known_operations
    · rw [if_pos hk]
      exact ih st
    · rw [if_neg hk]
      obtain ⟨i1, i2, i3⟩ := ih (st.insert_new_operation op)
      exact ⟨i1, i2, i3⟩

theorem next_operation_cp_fields (st : PCTStrategy) (ops : List Nat)
    (cur : Nat) :
    ((st.next_operation ops cur).2).priority_change_points =
      st.priority_change_points ∧
    ((st.next_operation ops cur).2).max_priority_switches =
      st.max_priority_switches ∧
    ((st.next_operation ops cur).2).schedule_length = st.schedule_length := by
  have hsn : (st.set_new_operation_priorities ops
        cur).priority_change_points = st.priority_change_points ∧
      (st.set_new_operation_priorities ops cur).max_priority_switches =
        st.max_priority_switches ∧
      (st.set_new_operation_priorities ops cur).schedule_length =
        st.schedule_length := by
    unfold PCTStrategy.set_new_operation_priorities
    split
    · exact set_new_fold_cp_fields ops _
    · exact set_new_fold_cp_fields ops st
  unfold PCTStrategy.next_operation
  dsimp only
  cases hok : (st.set_new_operation_priorities ops
      cur).try_deprioritize_operation_with_highest_priority ops with
  | error e => exact hsn
  | ok st2 =>
    have h2 : st2.priority_change_points =
        (st.set_new_operation_priorities ops cur).priority_change_points ∧
        st2.max_priority_switches =
          (st.set_new_operation_priorities ops cur).max_priority_switches ∧
        st2.schedule_length =
          (st.set_new_operation_priorities ops cur).schedule_length := by
      unfold PCTStrategy.try_deprioritize_operation_with_highest_priority
        at hok
      split at hok
      · obtain rfl := Except.ok.inj hok
        exact ⟨rfl, rfl, rfl⟩
      · split at hok
        · cases hget : get_operation_with_highest_priority
              (st.set_new_operation_priorities ops
                cur).prioritized_operations ops with
          | none => rw [hget] at hok; cases hok
          | some op0 =>
            rw [hget] at hok
            obtain rfl := Except.ok.inj hok
            exact ⟨rfl, rfl, rfl⟩
        · obtain rfl := Except.ok.inj hok
          exact ⟨rfl, rfl, rfl⟩
    dsimp only
    cases hget : get_operation_with_highest_priority
        st2.prioritized_operations ops with
    | none =>
      exact ⟨h2.1.trans hsn.1, h2.2.1.trans hsn.2.1, h2.2.2.trans hsn.2.2⟩
    | some op =>
      exact ⟨h2.1.trans hsn.1, h2.2.1.trans hsn.2.1, h2.2.2.trans hsn.2.2⟩

theorem pct_step_cp_inv (st : PCTStrategy) (e : PCTEvent)
    (h : pctChangePointInv st) : pctChangePointInv (st.stepEvent e) := by
  cases e with
  | nextOp ops cur =>
    show pctChangePointInv (st.next_operation ops cur).2
    obtain ⟨f1, f2, f3⟩ := next_operation_cp_fields st ops cur
    constructor
    · rw [f1, f2]
      exact h.1
    · intro p hp
      rw [f1] at hp
      rw [f3]
      exact h.2 p hp
  | nextBool => exact h
  | nextInt m => exact h
  | prepare i =>
    show pctChangePointInv (st.prepare_next_iteration i)
    unfold PCTStrategy.prepare_next_iteration
    by_cases hi : 1 < i
    · rw [if_pos hi]
      dsimp only
      exact (shuffle_change_point_inv _ rfl).1
    · rw [if_neg hi]
      exact h

/-- C7: in every reachable PCT state, the number of stored priority change
points is at most `max_priority_switches` and every change point lies in
`[1, schedule_length)`. -/
theorem pct_change_points_bounded (draws : Nat → Nat) (seed bound : Nat)
    (evs : List PCTEvent) :
    pctChangePointInv
      (PCTStrategy.run (PCTStrategy.fresh draws seed bound) evs) := by
  have step : ∀ (l : List PCTEvent) (st : PCTStrategy), pctChangePointInv st →
      pctChangePointInv (st.run l) := by
    intro l
    induction l with
    | nil => exact fun st h => h
    | cons e rest ih =>
      intro st h
      show pctChangePointInv (List.foldl PCTStrategy.stepEvent st (e :: rest))
      rw [List.foldl_cons]
      exact ih _ (pct_step_cp_inv st e h)
  refine step evs _ ⟨Nat.zero_le _, ?_⟩
  intro p hp
  exact absurd hp (List.not_mem_nil p)

/-! ### C3: prepare_next_iteration re-shuffles the change points -/

theorem foldl_setInsert_eq_append (xs : List Nat) :
    ∀ s : List Nat, (∀ x ∈ xs, x ∉ s) → xs.Nodup →
    List.foldl setInsert s xs = s ++ xs := by
  induction xs with
  | nil => intro s _ _; simp
  | cons x rest ih =>
    intro s hdisj hnd
    rw [List.foldl_cons]
    have hxs : x ∉ s := hdisj x (List.mem_cons_self x rest)
    have hsi : setInsert s x = s ++ [x] := by
      unfold setInsert
      rw [if_neg hxs]
    rw [hsi, ih (s ++ [x]) ?_ hnd.of_cons]
    · rw [List.append_assoc, List.singleton_append]
    · intro y hy hmem
      rcases List.mem_append.mp hmem with h | h
      · exact hdisj y (List.mem_cons_of_mem x hy) h
      · rw [List.mem_singleton.mp h] at hy
        exact (List.nodup_cons.mp hnd).1 hy

/-- C3: for an iteration `i > 1` with positive recorded schedule length, the
change points are exactly the first `max_priority_switches` elements of the
rng-driven swap shuffle of `[1, …, schedule_length − 1]` (where
`schedule_length` has first absorbed `scheduled_steps`), and that shuffled
sequence is a permutation of `[1, …, schedule_length − 1]`. -/
theorem pct_prepare_reshuffles (st : PCTStrategy) (i : Nat) (hi : 1 < i)
    (hL : 1 < max st.schedule_length st.scheduled_steps) :
    ((PCTStrategy.shuffle_pass
        { st with
          schedule_length := max st.schedule_length st.scheduled_steps
          scheduled_steps := 0
          prioritized_operations := []
          known_operations := []
          priority_change_points := [] }
        (List.range' 1 (max st.schedule_length st.scheduled_steps - 1))
        (List.range' 1
          ((List.range' 1 (max st.schedule_length st.scheduled_steps -
            1)).length - 1)).reverse).1).Perm
      (List.range' 1 (max st.schedule_length st.scheduled_steps - 1)) ∧
    (st.prepare_next_iteration i).priority_change_points =
      ((PCTStrategy.shuffle_pass
          { st with
            schedule_length := max st.schedule_length st.scheduled_steps
            scheduled_steps := 0
            prioritized_operations := []
            known_operations := []
            priority_change_points := [] }
          (List.range' 1 (max st.schedule_length st.scheduled_steps - 1))
          (List.range' 1
            ((List.range' 1 (max st.schedule_length st.scheduled_steps -
              1)).length - 1)).reverse).1).take st.max_priority_switches := by
  have hperm :
      ((PCTStrategy.shuffle_pass
          { st with
            schedule_length := max st.schedule_length st.scheduled_steps
            scheduled_steps := 0
            prioritized_operations := []
            known_operations := []
            priority_change_points := [] }
          (List.range' 1 (max st.schedule_length st.scheduled_steps - 1))
          (List.range' 1
            ((List.range' 1 (max st.schedule_length st.scheduled_steps -
              1)).length - 1)).reverse).1).Perm
        (List.range' 1 (max st.schedule_length st.scheduled_steps - 1)) :=
    shuffle_pass_perm _ _ _
  refine ⟨hperm, ?_⟩
  have h1 : st.prepare_next_iteration i =
      ({ st with
        schedule_length := max st.schedule_length st.scheduled_steps
        scheduled_steps := 0
        prioritized_operations := []
        known_operations := []
        priority_change_points := [] } :
        PCTStrategy).shuffle_priority_change_points := by
    unfold PCTStrategy.prepare_next_iteration
    rw [if_pos hi]
    by_cases hc : st.schedule_length < st.scheduled_steps
    · rw [if_pos hc, Nat.max_eq_right (Nat.le_of_lt hc)]
    · rw [if_neg hc, Nat.max_eq_left (Nat.le_of_not_lt hc)]
  rw [h1]
  unfold PCTStrategy.shuffle_priority_change_points
  rw [if_pos (show (1:Nat) < max st.schedule_length st.scheduled_steps
    from hL)]
  dsimp only
  obtain ⟨_, _, f3, f4, _, _⟩ := shuffle_pass_fields
    (List.range' 1
      ((List.range' 1 (max st.schedule_length st.scheduled_steps -
        1)).length - 1)).reverse
    { st with
      schedule_length := max st.schedule_length st.scheduled_steps
      scheduled_steps := 0
      prioritized_operations := []
      known_operations := []
      priority_change_points := [] }
    (List.range' 1 (max st.schedule_length st.scheduled_steps - 1))
  rw [f3, f4]
  have hnd :
      (((PCTStrategy.shuffle_pass
          { st with
            schedule_length := max st.schedule_length st.scheduled_steps
            scheduled_steps := 0
            prioritized_operations := []
            known_operations := []
            priority_change_points := [] }
          (List.range' 1 (max st.schedule_length st.scheduled_steps - 1))
          (List.range' 1
            ((List.range' 1 (max st.schedule_length st.scheduled_steps -
              1)).length - 1)).reverse).1).take
        st.max_priority_switches).Nodup :=
    (List.take_sublist _ _).nodup
      (hperm.nodup_iff.mpr (List.nodup_range' 1 _))
  rw [foldl_setInsert_eq_append _ _ (fun x _ h => List.not_mem_nil x h) hnd]
  rw [List.nil_append]

/-- Witness for C3 at a concrete strategy whose first iteration took five
steps, preparing iteration 2. -/
theorem pct_prepare_reshuffles_witness :
    1 < 2 ∧
    1 < max ({ PCTStrategy.fresh (fun _ => 0) 7 2 with
      scheduled_steps := 5 } : PCTStrategy).schedule_length
      ({ PCTStrategy.fresh (fun _ => 0) 7 2 with
        scheduled_steps := 5 } : PCTStrategy).scheduled_steps ∧
    (({ PCTStrategy.fresh (fun _ => 0) 7 2 with
        scheduled_steps := 5 } : PCTStrategy).prepare_next_iteration
      2).priority_change_points =
      ((PCTStrategy.shuffle_pass
          { ({ PCTStrategy.fresh (fun _ => 0) 7 2 with
              scheduled_steps := 5 } : PCTStrategy) with
            schedule_length :=
              max ({ PCTStrategy.fresh (fun _ => 0) 7 2 with
                scheduled_steps := 5 } : PCTStrategy).schedule_length
                ({ PCTStrategy.fresh (fun _ => 0) 7 2 with
                  scheduled_steps := 5 } : PCTStrategy).scheduled_steps
            scheduled_steps := 0
            prioritized_operations := []
            known_operations := []
            priority_change_points := [] }
          (List.range' 1
            (max ({ PCTStrategy.fresh (fun _ => 0) 7 2 with
              scheduled_steps := 5 } : PCTStrategy).schedule_length
              ({ PCTStrategy.fresh (fun _ => 0) 7 2 with
                scheduled_steps := 5 } : PCTStrategy).scheduled_steps - 1))
          (List.range' 1
            ((List.range' 1
              (max ({ PCTStrategy.fresh (fun _ => 0) 7 2 with
                scheduled_steps := 5 } : PCTStrategy).schedule_length
                ({ PCTStrategy.fresh (fun _ => 0) 7 2 with
                  scheduled_steps := 5 } :
                  PCTStrategy).scheduled_steps - 1)).length -
              1)).reverse).1).take
        ({ PCTStrategy.fresh (fun _ => 0) 7 2 with
          scheduled_steps := 5 } : PCTStrategy).max_priority_switches :=
  ⟨by decide, by decide,
    (pct_prepare_reshuffles
      { PCTStrategy.fresh (fun _ => 0) 7 2 with scheduled_steps := 5 } 2
      (by decide) (by decide)).2⟩

/-! ### C1: mutual exclusion of scheduling -/

theorem assocFind_ne_nil {α : Type} (m : List (Nat × α)) (k : Nat)
    (h : (assocFind m k).isSome = true) : m ≠ [] := by
  intro hc
  rw [hc] at h
  exact Bool.noConfusion h

theorem assocInsert_length_of_absent {α : Type} (m : List (Nat × α)) (k : Nat)
    (v : α) (h : assocFind m k = none) :
    (assocInsert m k v).length = m.length + 1 := by
  unfold assocInsert
  rw [h]
  simp

theorem isSome_of_map_viewOp_eq {o o' : Option Operation}
    (h : o.map viewOp = o'.map viewOp) : o.isSome = o'.isSome := by
  cases o <;> cases o' <;> simp_all

theorem inv_of_view (s s' : Kernel)
    (hview : ∀ id, (assocFind s'.operation_map id).map viewOp =
      (assocFind s.operation_map id).map viewOp)
    (hsched : s'.scheduled_op_id = s.scheduled_op_id)
    (hatt : s'.is_attached = s.is_attached)
    (hlen : s'.operation_map.length = s.operation_map.length)
    (hinv : KernelInv s) : KernelInv s' := by
  obtain ⟨u, a, m⟩ := hinv
  refine ⟨?_, ?_, ?_⟩
  · intro h
    have hnil : s.operation_map = [] := u (hatt ▸ h)
    have hl : s'.operation_map.length = 0 := by rw [hlen, hnil]; rfl
    exact List.length_eq_zero.mp hl
  · intro h
    obtain ⟨a1, a2⟩ := a (hatt ▸ h)
    constructor
    · rw [isSome_of_map_viewOp_eq (hview main_op_id)]
      exact a1
    · rw [hsched, isSome_of_map_viewOp_eq (hview s.scheduled_op_id)]
      exact a2
  · intro id op hfind hflag hstat
    have hv := hview id
    rw [hfind] at hv
    cases hfind0 : assocFind s.operation_map id with
    | none => rw [hfind0] at hv; cases hv
    | some op0 =>
      rw [hfind0] at hv
      have hvo : viewOp op = viewOp op0 := Option.some.inj hv
      have h1 : op.is_scheduled = op0.is_scheduled := congrArg Prod.fst hvo
      have h2 : op.status = op0.status := congrArg Prod.snd hvo
      have hflag0 : op0.is_scheduled = true := by rw [← h1]; exact hflag
      have hstat0 : op0.status ≠ OperationStatus.Completed := by
        rw [← h2]; exact hstat
      rw [hsched]
      exact m id op0 hfind0 hflag0 hstat0

theorem notify_joiners_core (joiners : List Nat) :
    ∀ (s : Kernel) (cid : Nat),
    (s.notify_joiners joiners cid).2.scheduled_op_id = s.scheduled_op_id ∧
    (s.notify_joiners joiners cid).2.is_attached = s.is_attached ∧
    (s.notify_joiners joiners cid).2.operation_map.length =
      s.operation_map.length ∧
    (∀ id,
      (assocFind (s.notify_joiners joiners cid).2.operation_map id).map
        viewOp = (assocFind s.operation_map id).map viewOp) := by
  induction joiners with
  | nil => exact fun s cid => ⟨rfl, rfl, rfl, fun _ => rfl⟩
  | cons j rest ih =>
    intro s cid
    cases hfind : assocFind s.operation_map j with
    | none =>
      have hstep : s.notify_joiners (j :: rest) cid =
          (some ErrorCode.Failure, s) := by
        simp only [Kernel.notify_joiners, hfind]
      rw [hstep]
      exact ⟨rfl, rfl, rfl, fun _ => rfl⟩
    | some blocked_op =>
      have hupd : ∀ id,
          (assocFind (assocUpdate s.operation_map j
            (fun _ => (blocked_op.on_join_operation cid).2)) id).map viewOp =
          (assocFind s.operation_map id).map viewOp := by
        intro id
        rw [assocFind_update]
        by_cases hj : id = j
        · rw [if_pos hj, hj, hfind]
          rfl
        · rw [if_neg hj]
      by_cases hb : (blocked_op.on_join_operation cid).1 = true
      · have hstep : s.notify_joiners (j :: rest) cid =
            Kernel.notify_joiners
              { s with
                operation_map := assocUpdate s.operation_map j
                  (fun _ => (blocked_op.on_join_operation cid).2)
                operations := s.operations.enable blocked_op.id }
              rest cid := by
          simp only [Kernel.notify_joiners, hfind]
          rw [if_pos hb]
        rw [hstep]
        obtain ⟨i1, i2, i3, i4⟩ := ih
          { s with
            operation_map := assocUpdate s.operation_map j
              (fun _ => (blocked_op.on_join_operation cid).2)
            operations := s.operations.enable blocked_op.id } cid
        refine ⟨i1, i2, i3.trans (assocUpdate_length s.operation_map j
          (fun _ => (blocked_op.on_join_operation cid).2)), ?_⟩
        intro id
        rw [i4 id]
        exact hupd id
      · have hstep : s.notify_joiners (j :: rest) cid =
            Kernel.notify_joiners
              { s with
                operation_map := assocUpdate s.operation_map j
                  (fun _ => (blocked_op.on_join_operation cid).2) }
              rest cid := by
          simp only [Kernel.notify_joiners, hfind]
          rw [if_neg hb]
        rw [hstep]
        obtain ⟨i1, i2, i3, i4⟩ := ih
          { s with
            operation_map := assocUpdate s.operation_map j
              (fun _ => (blocked_op.on_join_operation cid).2) } cid
        refine ⟨i1, i2, i3.trans (assocUpdate_length s.operation_map j
          (fun _ => (blocked_op.on_join_operation cid).2)), ?_⟩
        intro id
        rw [i4 id]
        exact hupd id

theorem signal_waiters_core (blocked : List Nat) :
    ∀ (s : Kernel) (rid : Nat),
    (s.signal_waiters blocked rid).2.scheduled_op_id = s.scheduled_op_id ∧
    (s.signal_waiters blocked rid).2.is_attached = s.is_attached ∧
    (s.signal_waiters blocked rid).2.operation_map.length =
      s.operation_map.length ∧
    (∀ id,
      (assocFind (s.signal_waiters blocked rid).2.operation_map id).map
        viewOp = (assocFind s.operation_map id).map viewOp) := by
  induction blocked with
  | nil => exact fun s rid => ⟨rfl, rfl, rfl, fun _ => rfl⟩
  | cons b rest ih =>
    intro s rid
    cases hfind : assocFind s.operation_map b with
    | none =>
      have hstep : s.signal_waiters (b :: rest) rid =
          (some ErrorCode.Failure, s) := by
        simp only [Kernel.signal_waiters, hfind]
      rw [hstep]
      exact ⟨rfl, rfl, rfl, fun _ => rfl⟩
    | some blocked_op =>
      have hupd : ∀ id,
          (assocFind (assocUpdate s.operation_map b
            (fun _ => (blocked_op.on_resource_signal rid).2)) id).map viewOp =
          (assocFind s.operation_map id).map viewOp := by
        intro id
        rw [assocFind_update]
        by_cases hj : id = b
        · rw [if_pos hj, hj, hfind]
          rfl
        · rw [if_neg hj]
      by_cases hb : (blocked_op.on_resource_signal rid).1 = true
      · have hstep : s.signal_waiters (b :: rest) rid =
            Kernel.signal_waiters
              { s with
                operation_map := assocUpdate s.operation_map b
                  (fun _ => (blocked_op.on_resource_signal rid).2)
                operations := s.operations.enable blocked_op.id }
              rest rid := by
          simp only [Kernel.signal_waiters, hfind]
          rw [if_pos hb]
        rw [hstep]
        obtain ⟨i1, i2, i3, i4⟩ := ih
          { s with
            operation_map := assocUpdate s.operation_map b
              (fun _ => (blocked_op.on_resource_signal rid).2)
            operations := s.operations.enable blocked_op.id } rid
        refine ⟨i1, i2, i3.trans (assocUpdate_length s.operation_map b
          (fun _ => (blocked_op.on_resource_signal rid).2)), ?_⟩
        intro id
        rw [i4 id]
        exact hupd id
      · have hstep : s.signal_waiters (b :: rest) rid =
            Kernel.signal_waiters
              { s with
                operation_map := assocUpdate s.operation_map b
                  (fun _ => (blocked_op.on_resource_signal rid).2) }
              rest rid := by
          simp only [Kernel.signal_waiters, hfind]
          rw [if_neg hb]
        rw [hstep]
        obtain ⟨i1, i2, i3, i4⟩ := ih
          { s with
            operation_map := assocUpdate s.operation_map b
              (fun _ => (blocked_op.on_resource_signal rid).2) } rid
        refine ⟨i1, i2, i3.trans (assocUpdate_length s.operation_map b
          (fun _ => (blocked_op.on_resource_signal rid).2)), ?_⟩
        intro id
        rw [i4 id]
        exact hupd id

theorem schedule_next_inner_inv (s : Kernel) (h : KernelInv s)
    (ha : s.is_attached = true) : KernelInv (s.schedule_next_inner).2 := by
  obtain ⟨u, a, m⟩ := h
  obtain ⟨a1, a2⟩ := a ha
  unfold Kernel.schedule_next_inner
  by_cases hp : 0 < s.pending_start_operation_count
  · rw [if_pos hp]
    exact ⟨u, fun _ => ⟨a1, a2⟩, m⟩
  · rw [if_neg hp]
    by_cases he : s.operations.size true = 0
    · rw [if_pos he]
      split
      · exact ⟨u, fun _ => ⟨a1, a2⟩, m⟩
      · exact ⟨u, fun _ => ⟨a1, a2⟩, m⟩
    · rw [if_neg he]
      dsimp only
      cases hr : (s.strategy.next_operation s.operations.enabledIds
          s.scheduled_op_id).1 with
      | error e => exact ⟨u, fun _ => ⟨a1, a2⟩, m⟩
      | ok next_id =>
        dsimp only
        cases hnext : assocFind s.operation_map next_id with
        | none => exact ⟨u, fun _ => ⟨a1, a2⟩, m⟩
        | some next_op =>
          by_cases hpn : s.scheduled_op_id ≠ next_id
          · rw [if_pos hpn]
            dsimp only
            have hprev : (assocFind (assocUpdate s.operation_map next_id
                (fun o => { o with is_scheduled := true }))
                s.scheduled_op_id).isSome = true := by
              rw [assocFind_update_isSome]
              exact a2
            cases hpo : assocFind (assocUpdate s.operation_map next_id
                (fun o => { o with is_scheduled := true }))
                s.scheduled_op_id with
            | none =>
              rw [hpo] at hprev
              exact Bool.noConfusion hprev
            | some prev_op =>
              have hprev_s : assocFind s.operation_map s.scheduled_op_id =
                  some prev_op := by
                rw [assocFind_update] at hpo
                rwa [if_neg (fun hc => hpn hc)] at hpo
              dsimp only
              by_cases hpc : prev_op.status ≠ OperationStatus.Completed
              · rw [if_pos hpc]
                refine ⟨?_, ?_, ?_⟩
                · intro h'
                  rw [ha] at h'
                  exact Bool.noConfusion h'
                · intro _
                  constructor
                  · show (assocFind (assocUpdate (assocUpdate s.operation_map
                      next_id (fun o => { o with is_scheduled := true }))
                      s.scheduled_op_id (fun o => { o with
                        is_scheduled := false })) main_op_id).isSome = true
                    rw [assocFind_update_isSome, assocFind_update_isSome]
                    exact a1
                  · show (assocFind (assocUpdate (assocUpdate s.operation_map
                      next_id (fun o => { o with is_scheduled := true }))
                      s.scheduled_op_id (fun o => { o with
                        is_scheduled := false })) next_id).isSome = true
                    rw [assocFind_update_isSome, assocFind_update_isSome,
                      hnext]
                    rfl
                · intro id op hf hfl hst
                  show id = next_id
                  by_cases hid : id = next_id
                  · exact hid
                  · by_cases hidp : id = s.scheduled_op_id
                    · have hval : assocFind (assocUpdate (assocUpdate
                          s.operation_map next_id
                          (fun o => { o with is_scheduled := true }))
                          s.scheduled_op_id
                          (fun o => { o with is_scheduled := false })) id =
                          some { prev_op with is_scheduled := false } := by
                        rw [assocFind_update, if_pos hidp, hidp, hpo]
                        rfl
                      have hopv : op = { prev_op with is_scheduled := false } := by
                        have := hval ▸ hf
                        exact (Option.some.inj this).symm
                      rw [hopv] at hfl
                      exact Bool.noConfusion hfl
                    · have hval : assocFind (assocUpdate (assocUpdate
                          s.operation_map next_id
                          (fun o => { o with is_scheduled := true }))
                          s.scheduled_op_id
                          (fun o => { o with is_scheduled := false })) id =
                          assocFind s.operation_map id := by
                        rw [assocFind_update, if_neg hidp, assocFind_update,
                          if_neg hid]
                      have hfs : assocFind s.operation_map id = some op := by
                        rw [← hval]
                        exact hf
                      exact absurd (m id op hfs hfl hst) hidp
              · rw [if_neg hpc]
                have hpcc : prev_op.status = OperationStatus.Completed :=
                  not_not.mp hpc
                refine ⟨?_, ?_, ?_⟩
                · intro h'
                  rw [ha] at h'
                  exact Bool.noConfusion h'
                · intro _
                  constructor
                  · show (assocFind (assocUpdate s.operation_map next_id
                      (fun o => { o with is_scheduled := true }))
                      main_op_id).isSome = true
                    rw [assocFind_update_isSome]
                    exact a1
                  · show (assocFind (assocUpdate s.operation_map next_id
                      (fun o => { o with is_scheduled := true }))
                      next_id).isSome = true
                    rw [assocFind_update_isSome, hnext]
                    rfl
                · intro id op hf hfl hst
                  show id = next_id
                  by_cases hid : id = next_id
                  · exact hid
                  · have hval : assocFind (assocUpdate s.operation_map next_id
                        (fun o => { o with is_scheduled := true })) id =
                        assocFind s.operation_map id := by
                      rw [assocFind_update, if_neg hid]
                    have hfs : assocFind s.operation_map id = some op := by
                      rw [← hval]
                      exact hf
                    have hide : id = s.scheduled_op_id := m id op hfs hfl hst
                    have hopv : op = prev_op := by
                      rw [hide, hprev_s] at hfs
                      exact (Option.some.inj hfs).symm
                    rw [hopv] at hst
                    exact absurd hpcc hst
          · rw [if_neg hpn]
            have heq : s.scheduled_op_id = next_id := not_not.mp hpn
            refine ⟨?_, ?_, ?_⟩
            · intro h'
              rw [ha] at h'
              exact Bool.noConfusion h'
            · intro _
              refine ⟨a1, ?_⟩
              show (assocFind s.operation_map next_id).isSome = true
              rw [hnext]
              rfl
            · intro id op hf hfl hst
              show id = next_id
              rw [← heq]
              exact m id op hf hfl hst

theorem finish_inv (r : KResult) (h : KernelInv r.2) :
    KernelInv (Kernel.finish r).2 := by
  rcases r with ⟨o, s⟩
  cases o with
  | none => exact h
  | some e => exact h

theorem create_operation_insert_block_inv (s : Kernel) (oid : Nat)
    (h : KernelInv s) (ha : s.is_attached = true)
    (hlen : (assocInsert s.operation_map oid
      (Operation.fresh oid)).length ≠ 1) :
    KernelInv (s.create_operation_insert_block oid) ∧
    (s.create_operation_insert_block oid).operation_map =
      assocInsert s.operation_map oid (Operation.fresh oid) ∧
    (s.create_operation_insert_block oid).scheduled_op_id =
      s.scheduled_op_id ∧
    (s.create_operation_insert_block oid).is_attached = s.is_attached ∧
    (s.create_operation_insert_block oid).pending_start_operation_count =
      s.pending_start_operation_count := by
  obtain ⟨u, a, m⟩ := h
  obtain ⟨a1, a2⟩ := a ha
  unfold Kernel.create_operation_insert_block
  dsimp only
  rw [if_neg hlen]
  refine ⟨⟨?_, ?_, ?_⟩, rfl, rfl, rfl, rfl⟩
  · intro h'
    rw [ha] at h'
    exact Bool.noConfusion h'
  · intro _
    exact ⟨assocFind_insert_isSome _ _ _ _ a1,
      assocFind_insert_isSome _ _ _ _ a2⟩
  · intro id op hf hfl hst
    show id = s.scheduled_op_id
    unfold assocInsert at hf
    split at hf
    · exact m id op hf hfl hst
    · rw [assocFind_append_single] at hf
      cases hfm : assocFind s.operation_map id with
      | some x =>
        rw [hfm] at hf
        obtain rfl := Option.some.inj hf
        exact m id x hfm hfl hst
      | none =>
        rw [hfm] at hf
        by_cases ho : oid = id
        · rw [if_pos ho] at hf
          obtain rfl := Option.some.inj hf
          exact Bool.noConfusion hfl
        · rw [if_neg ho] at hf
          exact Option.noConfusion hf

theorem create_operation_inner_inv (s : Kernel) (oid : Nat)
    (h : KernelInv s) (ha : s.is_attached = true) (hid : oid ≠ main_op_id) :
    KernelInv (s.create_operation_inner oid).2 := by
  have hmain : (assocFind s.operation_map main_op_id).isSome = true :=
    (h.2.1 ha).1
  have hmapne : s.operation_map ≠ [] := assocFind_ne_nil _ _ hmain
  have hlenpos : 0 < s.operation_map.length := List.length_pos.mpr hmapne
  unfold Kernel.create_operation_inner
  cases hfind : assocFind s.operation_map oid with
  | none =>
    have hm1 : (assocInsert s.operation_map oid
        (Operation.fresh oid)).length = s.operation_map.length + 1 :=
      assocInsert_length_of_absent _ _ _ hfind
    have hlen1 : (assocInsert s.operation_map oid
        (Operation.fresh oid)).length ≠ 1 := by
      rw [hm1]
      omega
    obtain ⟨k1, k2, _, k4, _⟩ :=
      create_operation_insert_block_inv s oid ⟨h.1, h.2.1, h.2.2⟩ ha hlen1
    have hb1a : (s.create_operation_insert_block oid).is_attached = true :=
      k4.trans ha
    have hfind2 : (assocFind
        (s.create_operation_insert_block oid).operation_map oid).isSome =
        true := by
      rw [k2]
      unfold assocInsert
      rw [hfind]
      simp [assocFind_append_single, hfind]
    have hlen2 : (assocInsert
        (s.create_operation_insert_block oid).operation_map oid
        (Operation.fresh oid)).length ≠ 1 := by
      rw [assocFind_insert_of_present _ _ _ hfind2, k2, hm1]
      omega
    obtain ⟨g1, _, _, _, _⟩ :=
      create_operation_insert_block_inv
        (s.create_operation_insert_block oid) oid k1 hb1a hlen2
    exact g1
  | some existing_op =>
    by_cases hst : existing_op.status = OperationStatus.Completed
    · dsimp only
      rw [if_pos hst]
      dsimp only
      obtain ⟨u, a, m⟩ := h
      obtain ⟨a1, a2⟩ := a ha
      have hinv1 : KernelInv { s with
          operation_map := assocUpdate s.operation_map oid
            (fun op => { op with
              status := OperationStatus.None
              is_scheduled := false }) } := by
        refine ⟨?_, ?_, ?_⟩
        · intro h'
          rw [ha] at h'
          exact Bool.noConfusion h'
        · intro _
          constructor
          · show (assocFind (assocUpdate s.operation_map oid
              (fun op => { op with
              status := OperationStatus.None
              is_scheduled := false })) main_op_id).isSome = true
            rw [assocFind_update_isSome]
            exact a1
          · show (assocFind (assocUpdate s.operation_map oid
              (fun op => { op with
              status := OperationStatus.None
              is_scheduled := false })) s.scheduled_op_id).isSome = true
            rw [assocFind_update_isSome]
            exact a2
        · intro id op hf hfl hst2
          show id = s.scheduled_op_id
          rw [assocFind_update] at hf
          by_cases hio : id = oid
          · rw [if_pos hio, hio, hfind] at hf
            obtain rfl := Option.some.inj hf
            exact Bool.noConfusion hfl
          · rw [if_neg hio] at hf
            exact m id op hf hfl hst2
      have hfind1 : (assocFind
          ({ s with
            operation_map := assocUpdate s.operation_map oid
              (fun op => { op with
                status := OperationStatus.None
                is_scheduled := false }) } : Kernel).operation_map
            oid).isSome = true := by
        show (assocFind (assocUpdate s.operation_map oid
          (fun op => { op with
              status := OperationStatus.None
              is_scheduled := false })) oid).isSome = true
        rw [assocFind_update_isSome, hfind]
        rfl
      have hmain1 : (assocFind
          ({ s with
            operation_map := assocUpdate s.operation_map oid
              (fun op => { op with
                status := OperationStatus.None
                is_scheduled := false }) } : Kernel).operation_map
            main_op_id).isSome = true := by
        show (assocFind (assocUpdate s.operation_map oid
          (fun op => { op with
              status := OperationStatus.None
              is_scheduled := false })) main_op_id).isSome = true
        rw [assocFind_update_isSome]
        exact a1
      have hlen1 : (assocInsert
          ({ s with
            operation_map := assocUpdate s.operation_map oid
              (fun op => { op with
                status := OperationStatus.None
                is_scheduled := false }) } : Kernel).operation_map oid
          (Operation.fresh oid)).length ≠ 1 := by
        rw [assocFind_insert_of_present _ _ _ hfind1]
        intro hc
        obtain ⟨opm, hopm⟩ := Option.isSome_iff_exists.mp hmain1
        obtain ⟨opo, hopo⟩ := Option.isSome_iff_exists.mp hfind1
        exact hid (assocFind_singleton _ _ _ _ _ hc hopo hopm)
      obtain ⟨g1, _, _, _, _⟩ :=
        create_operation_insert_block_inv _ oid hinv1 ha hlen1
      exact g1
    · dsimp only
      rw [if_neg hst]
      exact h

theorem start_operation_inner_inv (s : Kernel) (oid : Nat)
    (h : KernelInv s) (ha : s.is_attached = true) :
    KernelInv (s.start_operation_inner oid).2 := by
  obtain ⟨u, a, m⟩ := h
  obtain ⟨a1, a2⟩ := a ha
  unfold Kernel.start_operation_inner
  cases hfind : assocFind s.operation_map oid with
  | none => exact ⟨u, fun _ => ⟨a1, a2⟩, m⟩
  | some op =>
    dsimp only
    by_cases hC : op.status = OperationStatus.Completed
    · rw [if_pos hC]
      exact ⟨u, fun _ => ⟨a1, a2⟩, m⟩
    · rw [if_neg hC]
      by_cases hN : op.status ≠ OperationStatus.None
      · rw [if_pos hN]
        exact ⟨u, fun _ => ⟨a1, a2⟩, m⟩
      · rw [if_neg hN]
        rw [if_pos hC]
        refine ⟨?_, ?_, ?_⟩
        · intro h'
          rw [ha] at h'
          exact Bool.noConfusion h'
        · intro _
          constructor
          · show (assocFind (assocUpdate s.operation_map oid
              (fun o => { o with status := OperationStatus.Enabled })) main_op_id).isSome = true
            rw [assocFind_update_isSome]
            exact a1
          · show (assocFind (assocUpdate s.operation_map oid
              (fun o => { o with status := OperationStatus.Enabled })) s.scheduled_op_id).isSome = true
            rw [assocFind_update_isSome]
            exact a2
        · intro id op2 hf hfl hst
          show id = s.scheduled_op_id
          rw [assocFind_update] at hf
          by_cases hio : id = oid
          · rw [if_pos hio, hio, hfind] at hf
            obtain rfl := Option.some.inj hf
            rw [hio]
            exact m oid op hfind hfl hC
          · rw [if_neg hio] at hf
            exact m id op2 hf hfl hst

theorem attach_create_run (s2 : Kernel) (hmap : s2.operation_map = []) :
    s2.create_operation_inner main_op_id =
      (none, { s2 with
        scheduled_op_id := main_op_id
        operation_map := [(main_op_id,
          { Operation.fresh main_op_id with is_scheduled := true })]
        pending_start_operation_count :=
          s2.pending_start_operation_count + 1 }) := by
  unfold Kernel.create_operation_inner Kernel.create_operation_insert_block
    assocInsert
  rw [hmap]
  rfl

theorem attach_tail2 (s2 : Kernel) (hatt : s2.is_attached = true) :
    KernelInv (Kernel.start_operation_inner
      { s2 with
        scheduled_op_id := main_op_id
        operation_map := [(main_op_id,
          { Operation.fresh main_op_id with is_scheduled := true })]
        pending_start_operation_count :=
          s2.pending_start_operation_count + 1 } main_op_id).2 := by
  have hrun2 : Kernel.start_operation_inner
      { s2 with
        scheduled_op_id := main_op_id
        operation_map := [(main_op_id,
          { Operation.fresh main_op_id with is_scheduled := true })]
        pending_start_operation_count :=
          s2.pending_start_operation_count + 1 } main_op_id =
      (none, { s2 with
        scheduled_op_id := main_op_id
        operation_map := [(main_op_id,
          { Operation.fresh main_op_id with
            is_scheduled := true
            status := OperationStatus.Enabled })]
        pending_start_operation_count := s2.pending_start_operation_count
        operations := s2.operations.insert main_op_id }) := by
    rfl
  rw [hrun2]
  refine ⟨?_, ?_, ?_⟩
  · intro h'
    rw [show ({ s2 with
        scheduled_op_id := main_op_id
        operation_map := [(main_op_id,
          { Operation.fresh main_op_id with
            is_scheduled := true
            status := OperationStatus.Enabled })]
        pending_start_operation_count := s2.pending_start_operation_count
        operations := s2.operations.insert main_op_id } :
        Kernel).is_attached = s2.is_attached from rfl, hatt] at h'
    exact Bool.noConfusion h'
  · intro _
    exact ⟨rfl, rfl⟩
  · intro id op hf hfl hst
    show id = main_op_id
    by_cases hm : main_op_id = id
    · exact hm.symm
    · dsimp only [assocFind] at hf
      rw [if_neg hm] at hf
      exact Option.noConfusion hf

theorem attach_inv (s : Kernel) (h : KernelInv s) : KernelInv (s.attach).2 := by
  unfold Kernel.attach
  apply finish_inv
  by_cases hd : s.strategy_disabled = true
  · rw [if_pos hd]
    exact h
  · rw [if_neg hd]
    by_cases hatt : s.is_attached = true
    · rw [if_pos hatt]
      exact h
    · rw [if_neg hatt]
      have hfalse : s.is_attached = false := by
        cases hb : s.is_attached
        · rfl
        · exact absurd hb hatt
      have hmap : s.operation_map = [] := h.1 hfalse
      dsimp only
      by_cases hiter : 1 < s.iteration_count + 1
      · rw [if_pos hiter]
        split
        · rename_i e s' heq
          rw [attach_create_run _ (by exact hmap)] at heq
          injection heq with h1 h2
          exact Option.noConfusion h1
        · rename_i s3 heq
          rw [attach_create_run _ (by exact hmap)] at heq
          injection heq with h1 h2
          rw [← h2]
          exact attach_tail2 _ rfl
      · rw [if_neg hiter]
        split
        · rename_i e s' heq
          rw [attach_create_run _ (by exact hmap)] at heq
          injection heq with h1 h2
          exact Option.noConfusion h1
        · rename_i s3 heq
          rw [attach_create_run _ (by exact hmap)] at heq
          injection heq with h1 h2
          rw [← h2]
          exact attach_tail2 _ rfl

theorem detach_inv (s : Kernel) (h : KernelInv s) : KernelInv (s.detach).2 := by
  unfold Kernel.detach
  apply finish_inv
  by_cases hd : s.strategy_disabled = true
  · rw [if_pos hd]
    exact h
  · rw [if_neg hd]
    by_cases hatt : s.is_attached = true
    · rw [if_neg (fun hc : ¬ s.is_attached = true => hc hatt)]
      dsimp only
      cases hm : assocFind s.operation_map main_op_id with
      | none =>
        have ha1 := (h.2.1 hatt).1
        rw [hm] at ha1
        exact Bool.noConfusion ha1
      | some main_op =>
        refine ⟨fun _ => rfl, ?_, ?_⟩
        · intro h'
          exact Bool.noConfusion h'
        · intro id op hf hfl hst
          exact Option.noConfusion hf
    · rw [if_pos hatt]
      exact h

theorem create_operation_inv (s : Kernel) (oid : Nat) (h : KernelInv s) :
    KernelInv (s.create_operation oid).2 := by
  unfold Kernel.create_operation
  apply finish_inv
  by_cases hd : s.strategy_disabled = true
  · rw [if_pos hd]
    exact h
  · rw [if_neg hd]
    by_cases hatt : s.is_attached = true
    · rw [if_neg (fun hc : ¬ s.is_attached = true => hc hatt)]
      by_cases ho : oid = main_op_id
      · rw [if_pos ho]
        exact h
      · rw [if_neg ho]
        exact create_operation_inner_inv s oid h hatt ho
    · rw [if_pos hatt]
      exact h

theorem start_operation_pub_inv (s : Kernel) (oid : Nat) (h : KernelInv s) :
    KernelInv (s.start_operation oid).2 := by
  unfold Kernel.start_operation
  apply finish_inv
  by_cases hd : s.strategy_disabled = true
  · rw [if_pos hd]
    exact h
  · rw [if_neg hd]
    by_cases hatt : s.is_attached = true
    · rw [if_neg (fun hc : ¬ s.is_attached = true => hc hatt)]
      by_cases ho : oid = main_op_id
      · rw [if_pos ho]
        exact h
      · rw [if_neg ho]
        exact start_operation_inner_inv s oid h hatt
    · rw [if_pos hatt]
      exact h

theorem create_resource_inv (s : Kernel) (rid : Nat) (h : KernelInv s) :
    KernelInv (s.create_resource rid).2 := by
  unfold Kernel.create_resource
  apply finish_inv
  by_cases hd : s.strategy_disabled = true
  · rw [if_pos hd]
    exact h
  · rw [if_neg hd]
    by_cases hatt : s.is_attached = true
    · rw [if_neg (fun hc : ¬ s.is_attached = true => hc hatt)]
      cases hr : assocFind s.resource_map rid with
      | some blocked => exact h
      | none => exact ⟨h.1, h.2.1, h.2.2⟩
    · rw [if_pos hatt]
      exact h

theorem delete_resource_inv (s : Kernel) (rid : Nat) (h : KernelInv s) :
    KernelInv (s.delete_resource rid).2 := by
  unfold Kernel.delete_resource
  apply finish_inv
  by_cases hd : s.strategy_disabled = true
  · rw [if_pos hd]
    exact h
  · rw [if_neg hd]
    by_cases hatt : s.is_attached = true
    · rw [if_neg (fun hc : ¬ s.is_attached = true => hc hatt)]
      cases hr : assocFind s.resource_map rid with
      | some blocked => exact ⟨h.1, h.2.1, h.2.2⟩
      | none => exact h
    · rw [if_pos hatt]
      exact h

theorem schedule_next_pub_inv (s : Kernel) (h : KernelInv s) :
    KernelInv (s.schedule_next).2 := by
  unfold Kernel.schedule_next
  apply finish_inv
  by_cases hd : s.strategy_disabled = true
  · rw [if_pos hd]
    exact h
  · rw [if_neg hd]
    by_cases hatt : s.is_attached = true
    · rw [if_neg (fun hc : ¬ s.is_attached = true => hc hatt)]
      exact schedule_next_inner_inv s h hatt
    · rw [if_pos hatt]
      exact h

theorem view_update_preserved (m : List (Nat × Operation)) (k : Nat)
    (f : Operation → Operation) (hf : ∀ o, viewOp (f o) = viewOp o) :
    ∀ id, (assocFind (assocUpdate m k f) id).map viewOp =
      (assocFind m id).map viewOp := by
  intro id
  rw [assocFind_update]
  by_cases hik : id = k
  · rw [if_pos hik]
    cases hfm : assocFind m id with
    | none => rfl
    | some x =>
      show some (viewOp (f x)) = some (viewOp x)
      rw [hf x]
  · rw [if_neg hik]

theorem join_operation_inv (s : Kernel) (oid : Nat) (h : KernelInv s) :
    KernelInv (s.join_operation oid).2 := by
  unfold Kernel.join_operation
  apply finish_inv
  by_cases hd : s.strategy_disabled = true
  · rw [if_pos hd]
    exact h
  · rw [if_neg hd]
    by_cases hatt : s.is_attached = true
    · rw [if_neg (fun hc : ¬ s.is_attached = true => hc hatt)]
      cases hfind : assocFind s.operation_map oid with
      | none => exact h
      | some join_op =>
        dsimp only
        by_cases hjc : join_op.status ≠ OperationStatus.Completed
        · rw [if_pos hjc]
          cases hsched : assocFind (assocUpdate s.operation_map oid
              (fun op => { op with
                blocked_operation_ids :=
                  setInsert op.blocked_operation_ids s.scheduled_op_id }))
              s.scheduled_op_id with
          | none =>
            exact inv_of_view s _
              (view_update_preserved s.operation_map oid
                (fun op => { op with blocked_operation_ids := setInsert op.blocked_operation_ids s.scheduled_op_id })
                (fun o => rfl))
              rfl rfl
              (assocUpdate_length s.operation_map oid
                (fun op => { op with blocked_operation_ids := setInsert op.blocked_operation_ids s.scheduled_op_id })) h
          | some scheduled_op =>
            apply schedule_next_inner_inv
            · refine inv_of_view s _ ?_ rfl rfl ?_ h
              · intro id
                exact (view_update_preserved
                    (assocUpdate s.operation_map oid
                      (fun op => { op with blocked_operation_ids := setInsert op.blocked_operation_ids s.scheduled_op_id }))
                    s.scheduled_op_id
                    (fun op => op.join_operation oid) (fun o => rfl) id).trans
                  (view_update_preserved s.operation_map oid
                    (fun op => { op with blocked_operation_ids := setInsert op.blocked_operation_ids s.scheduled_op_id })
                    (fun o => rfl) id)
              · exact (assocUpdate_length
                    (assocUpdate s.operation_map oid
                      (fun op => { op with blocked_operation_ids := setInsert op.blocked_operation_ids s.scheduled_op_id }))
                    s.scheduled_op_id
                    (fun op => op.join_operation oid)).trans
                  (assocUpdate_length s.operation_map oid
                    (fun op => { op with blocked_operation_ids := setInsert op.blocked_operation_ids s.scheduled_op_id }))
            · exact hatt
        · rw [if_neg hjc]
          exact h
    · rw [if_pos hatt]
      exact h

theorem complete_operation_inv (s : Kernel) (oid : Nat) (h : KernelInv s) :
    KernelInv (s.complete_operation oid).2 := by
  unfold Kernel.complete_operation
  apply finish_inv
  by_cases hd : s.strategy_disabled = true
  · rw [if_pos hd]
    exact h
  · rw [if_neg hd]
    by_cases hatt : s.is_attached = true
    · rw [if_neg (fun hc : ¬ s.is_attached = true => hc hatt)]
      by_cases ho : oid = main_op_id
      · rw [if_pos ho]
        exact h
      · rw [if_neg ho]
        cases hfind : assocFind s.operation_map oid with
        | none => exact h
        | some op =>
          dsimp only
          by_cases hC : op.status = OperationStatus.Completed
          · rw [if_pos hC]
            exact h
          · rw [if_neg hC]
            by_cases hN : op.status = OperationStatus.None
            · rw [if_pos hN]
              exact h
            · rw [if_neg hN]
              obtain ⟨u, a, m⟩ := h
              obtain ⟨a1, a2⟩ := a hatt
              have hinv2 : KernelInv { s with
                  operation_map := assocUpdate s.operation_map oid
                    (fun o => { o with status := OperationStatus.Completed })
                  operations := s.operations.remove op.id } := by
                refine ⟨?_, ?_, ?_⟩
                · intro h'
                  rw [show ({ s with
                      operation_map := assocUpdate s.operation_map oid
                        (fun o => { o with
                          status := OperationStatus.Completed })
                      operations := s.operations.remove op.id } :
                      Kernel).is_attached = s.is_attached from rfl, hatt]
                    at h'
                  exact Bool.noConfusion h'
                · intro _
                  constructor
                  · show (assocFind (assocUpdate s.operation_map oid
                      (fun o => { o with
                        status := OperationStatus.Completed }))
                      main_op_id).isSome = true
                    rw [assocFind_update_isSome]
                    exact a1
                  · show (assocFind (assocUpdate s.operation_map oid
                      (fun o => { o with
                        status := OperationStatus.Completed }))
                      s.scheduled_op_id).isSome = true
                    rw [assocFind_update_isSome]
                    exact a2
                · intro id op2 hf hfl hst
                  show id = s.scheduled_op_id
                  rw [assocFind_update] at hf
                  by_cases hio : id = oid
                  · rw [if_pos hio, hio, hfind] at hf
                    obtain rfl := Option.some.inj hf
                    exact absurd rfl hst
                  · rw [if_neg hio] at hf
                    exact m id op2 hf hfl hst
              obtain ⟨c1, c2, c3, c4⟩ :=
                notify_joiners_core op.blocked_operation_ids
                  { s with
                    operation_map := assocUpdate s.operation_map oid
                      (fun o => { o with
                        status := OperationStatus.Completed })
                    operations := s.operations.remove op.id } oid
              split
              · rename_i e s3 heq
                have hs3 : (Kernel.notify_joiners
                    { s with
                      operation_map := assocUpdate s.operation_map oid
                        (fun o => { o with
                          status := OperationStatus.Completed })
                      operations := s.operations.remove op.id }
                    op.blocked_operation_ids oid).2 = s3 := by
                  rw [heq]
                rw [hs3] at c1 c2 c3 c4
                exact inv_of_view _ s3 c4 c1 c2 c3 hinv2
              · rename_i s3 heq
                have hs3 : (Kernel.notify_joiners
                    { s with
                      operation_map := assocUpdate s.operation_map oid
                        (fun o => { o with
                          status := OperationStatus.Completed })
                      operations := s.operations.remove op.id }
                    op.blocked_operation_ids oid).2 = s3 := by
                  rw [heq]
                rw [hs3] at c1 c2 c3 c4
                apply schedule_next_inner_inv
                · exact inv_of_view _ s3 c4 c1 c2 c3 hinv2
                · rw [c2]
                  exact hatt
    · rw [if_pos hatt]
      exact h

theorem wait_resource_inv (s : Kernel) (rid : Nat) (h : KernelInv s) :
    KernelInv (s.wait_resource rid).2 := by
  unfold Kernel.wait_resource
  apply finish_inv
  by_cases hd : s.strategy_disabled = true
  · rw [if_pos hd]
    exact h
  · rw [if_neg hd]
    by_cases hatt : s.is_attached = true
    · rw [if_neg (fun hc : ¬ s.is_attached = true => hc hatt)]
      cases hfind : assocFind s.operation_map s.scheduled_op_id with
      | none => exact h
      | some scheduled_op =>
        dsimp only
        cases hres : assocFind s.resource_map rid with
        | none =>
          dsimp only
          exact inv_of_view s _
            (view_update_preserved s.operation_map s.scheduled_op_id
              (fun op => op.wait_resource_signal rid) (fun o => rfl))
            rfl rfl
            (assocUpdate_length s.operation_map s.scheduled_op_id
              (fun op => op.wait_resource_signal rid)) h
        | some blocked =>
          apply schedule_next_inner_inv
          · exact inv_of_view s _
              (view_update_preserved s.operation_map s.scheduled_op_id
                (fun op => op.wait_resource_signal rid) (fun o => rfl))
              rfl rfl
              (assocUpdate_length s.operation_map s.scheduled_op_id
                (fun op => op.wait_resource_signal rid)) h
          · exact hatt
    · rw [if_pos hatt]
      exact h

theorem signal_resource_inv (s : Kernel) (rid : Nat) (h : KernelInv s) :
    KernelInv (s.signal_resource rid).2 := by
  unfold Kernel.signal_resource
  apply finish_inv
  by_cases hd : s.strategy_disabled = true
  · rw [if_pos hd]
    exact h
  · rw [if_neg hd]
    by_cases hatt : s.is_attached = true
    · rw [if_neg (fun hc : ¬ s.is_attached = true => hc hatt)]
      cases hres : assocFind s.resource_map rid with
      | none => exact h
      | some blocked =>
        dsimp only
        obtain ⟨c1, c2, c3, c4⟩ := signal_waiters_core blocked s rid
        split
        · rename_i e s1 heq
          have hs1 : (s.signal_waiters blocked rid).2 = s1 := by rw [heq]
          rw [hs1] at c1 c2 c3 c4
          exact inv_of_view s s1 c4 c1 c2 c3 h
        · rename_i s1 heq
          have hs1 : (s.signal_waiters blocked rid).2 = s1 := by rw [heq]
          rw [hs1] at c1 c2 c3 c4
          exact inv_of_view s s1 c4 c1 c2 c3 h
    · rw [if_pos hatt]
      exact h

theorem signal_resource_op_inv (s : Kernel) (rid oid : Nat)
    (h : KernelInv s) : KernelInv (s.signal_resource_op rid oid).2 := by
  unfold Kernel.signal_resource_op
  apply finish_inv
  by_cases hd : s.strategy_disabled = true
  · rw [if_pos hd]
    exact h
  · rw [if_neg hd]
    by_cases hatt : s.is_attached = true
    · rw [if_neg (fun hc : ¬ s.is_attached = true => hc hatt)]
      cases hres : assocFind s.resource_map rid with
      | none => exact h
      | some blocked =>
        dsimp only
        by_cases hmem : oid ∈ blocked
        · rw [if_pos hmem]
          cases hop : assocFind s.operation_map oid with
          | none => exact h
          | some blocked_op =>
            dsimp only
            have hview : ∀ id,
                (assocFind (assocUpdate s.operation_map oid
                  (fun _ => (blocked_op.on_resource_signal rid).2)) id).map
                    viewOp =
                (assocFind s.operation_map id).map viewOp := by
              intro id
              rw [assocFind_update]
              by_cases hik : id = oid
              · rw [if_pos hik, hik, hop]
                rfl
              · rw [if_neg hik]
            by_cases hsat : (blocked_op.on_resource_signal rid).1 = true
            · rw [if_pos hsat]
              apply inv_of_view s
              · exact hview
              · rfl
              · rfl
              · exact assocUpdate_length s.operation_map oid
                  (fun _ => (blocked_op.on_resource_signal rid).2)
              · exact h
            · rw [if_neg hsat]
              apply inv_of_view s
              · exact hview
              · rfl
              · rfl
              · exact assocUpdate_length s.operation_map oid
                  (fun _ => (blocked_op.on_resource_signal rid).2)
              · exact h
        · rw [if_neg hmem]
          exact h
    · rw [if_pos hatt]
      exact h

theorem fresh_inv (draws : Nat → Nat) (seed bound : Nat) :
    KernelInv (Kernel.fresh draws seed bound) := by
  refine ⟨fun _ => rfl, fun h => Bool.noConfusion h, ?_⟩
  intro id op hf
  exact Option.noConfusion hf

theorem kernel_step_inv (s : Kernel) (e : KEvent) (h : KernelInv s) :
    KernelInv (s.stepEvent e) := by
  cases e with
  | attach => exact attach_inv s h
  | detach => exact detach_inv s h
  | createOp i => exact create_operation_inv s i h
  | startOp i => exact start_operation_pub_inv s i h
  | completeOp i => exact complete_operation_inv s i h
  | joinOp i => exact join_operation_inv s i h
  | createRes i => exact create_resource_inv s i h
  | deleteRes i => exact delete_resource_inv s i h
  | waitRes i => exact wait_resource_inv s i h
  | signalRes i => exact signal_resource_inv s i h
  | signalResTo r i => exact signal_resource_op_inv s r i h
  | scheduleNext => exact schedule_next_pub_inv s h

theorem kernel_run_inv_of (evs : List KEvent) (s : Kernel)
    (h : KernelInv s) : KernelInv (s.run evs) := by
  induction evs generalizing s with
  | nil => exact h
  | cons e t ih => exact ih (s.stepEvent e) (kernel_step_inv s e h)

/-- C1 (amended): in every kernel state reachable from a fresh scheduler by
any sequence of entry-point calls, every operation record that holds the
`is_scheduled` token flag and is not completed is exactly the operation named
by `scheduled_op_id`; in particular at most one non-completed record holds the
flag at a time. (Completed records may retain a stale flag, so the original
"exactly one operation over all records" form fails; see the
counterexample.) -/
theorem scheduling_mutual_exclusion_amended (draws : Nat → Nat)
    (seed bound : Nat) (evs : List KEvent) :
    ((Kernel.fresh draws seed bound).run evs).scheduledMutex ∧
    (∀ i j oi oj,
      assocFind ((Kernel.fresh draws seed bound).run evs).operation_map i =
        some oi →
      assocFind ((Kernel.fresh draws seed bound).run evs).operation_map j =
        some oj →
      oi.is_scheduled = true → oj.is_scheduled = true →
      oi.status ≠ OperationStatus.Completed →
      oj.status ≠ OperationStatus.Completed → i = j) := by
  have hm : ((Kernel.fresh draws seed bound).run evs).scheduledMutex :=
    (kernel_run_inv_of evs (Kernel.fresh draws seed bound)
      (fresh_inv draws seed bound)).2.2
  refine ⟨hm, ?_⟩
  intro i j oi oj hfi hfj hsi hsj hci hcj
  rw [hm i oi hfi hsi hci, hm j oj hfj hsj hcj]

/-- C1 counterexample: after attach, create 1, start 1, join 1, complete 1
the kernel is still attached, yet two operation records hold the
`is_scheduled` flag at once (the completed operation 1 keeps its stale flag
alongside the main operation), refuting the claim that exactly one operation
has `is_scheduled = true` at any time while attached. -/
theorem scheduling_mutual_exclusion_counterexample :
    ((Kernel.fresh (fun _ => 0) 1 0).run
      [KEvent.attach, KEvent.createOp 1, KEvent.startOp 1, KEvent.joinOp 1,
        KEvent.completeOp 1]).is_attached = true ∧
    (((Kernel.fresh (fun _ => 0) 1 0).run
      [KEvent.attach, KEvent.createOp 1, KEvent.startOp 1, KEvent.joinOp 1,
        KEvent.completeOp 1]).operation_map.filter
      (fun p => p.2.is_scheduled)).length = 2 := by
  decide

end coyote
